import Mathlib

/-!
# Device API wrapper (`src/device_api_wrapper.cpp`)

A shallow embedding of the handle-based wrapper around the accelerator runtime.

Conventions of the embedding:

* the accelerator runtime is external; every call into it is answered by a scripted
  outcome carried by the object the call is made on (a test double), and every function
  that talks to the device returns, next to its status, the list of device calls it made;
* a `void*` that is only compared with null is a `Nat` address (`0` is null); a pointer
  that is dereferenced is an `Option` of the object behind it (`none` is null);
* out-parameters are a record that is passed in and handed back;
* the worker threads of `hailors_infer` are a step relation: a scheduler picks the worker
  that takes the next step, a step being one device call together with the assignment to
  the shared variable `status` that may follow it (the plain `int`-sized store is taken as
  atomic); the exit of a thread is not a step. `hailors_infer` takes the schedule as an
  argument and returns `none` while the body of some worker is not through;
* the body of a worker is also given as a whole run (`input_worker`, `output_worker`), which
  names the device calls and the failure status of a worker; the step functions are tied
  to it by `input_thread_step_spec` and `output_thread_step_spec`;
* `delete` applied to an address that holds no live object is undefined behaviour: the
  call has no defined result and the embedding returns `none`.
-/

namespace Hailors

/-! ## Runtime types -/

/-- Status codes of the runtime. The wrapper names three of them; every other code of the
runtime enum is `HAILO_OTHER c`. -/
inductive hailo_status where
  | HAILO_SUCCESS
  | HAILO_INVALID_ARGUMENT
  | HAILO_INVALID_OPERATION
  | HAILO_OTHER (code : Nat)
  deriving DecidableEq, Repr

open hailo_status

/-- The runtime `Expected<T>`: a value, or a status that is not `HAILO_SUCCESS`. The test
`!result` of the wrapper is the case `unexpected`. -/
inductive Expected (α : Type) where
  | value (v : α)
  | unexpected (status : hailo_status) (h : status ≠ HAILO_SUCCESS)

/-- The `status()` of `Expected<T>`: `HAILO_SUCCESS` when it holds a value. -/
def Expected.status {α : Type} : Expected α → hailo_status
  | .value _ => HAILO_SUCCESS
  | .unexpected s _ => s

/-- The `MemoryView(data, size)`: the bytes behind the pointer and the size given. -/
structure MemoryView where
  data : List Nat
  size : Nat
  deriving DecidableEq, Repr

/-- A call that reaches the device through a stream object. -/
inductive DeviceCall where
  | write (buffer : MemoryView)
  | flush
  | read (buffer : MemoryView)
  deriving DecidableEq, Repr

/-- An `InputVStream` as the wrapper uses it: `write n buffer` is the status the device gives
to a write of `buffer` made after `n` earlier writes through this handle in the same
wrapper call, `flush` the status it gives to the flush. -/
structure InputVStream where
  frame_size : Nat
  write : Nat → MemoryView → hailo_status
  flush : hailo_status

/-- An `OutputVStream` as the wrapper uses it: `read n buffer` is the status the device gives
to a read into `buffer` made after `n` earlier reads through this handle in the same
wrapper call. -/
structure OutputVStream where
  frame_size : Nat
  read : Nat → MemoryView → hailo_status

/-! ## `hailors_infer` -/

/-- A worker thread of `hailors_infer`: the `i`-th input or the `i`-th output thread. -/
inductive Worker where
  | input (i : Nat)
  | output (i : Nat)
  deriving DecidableEq, Repr

/-- All worker threads spawned for `input_count` inputs and `output_count` outputs. -/
def workers (input_count output_count : Nat) : List Worker :=
  (List.range input_count).map Worker.input ++ (List.range output_count).map Worker.output

/-- Result of `hailors_infer`: the returned status and the device calls of every worker. -/
structure InferResult where
  status : hailo_status
  input_calls : List (List DeviceCall)
  output_calls : List (List DeviceCall)
  deriving DecidableEq, Repr

/-- Control point of the body of a worker thread: about to start iteration `j` of its loop
(with `j = 100` the loop is over: an input worker is about to flush, an output worker has
nothing left to do), or `body_done`: the body has run its last statement with an effect,
for a failing worker the assignment to `status`. The `return` and the exit of the thread
that follow touch no shared state and are not steps; the order in which threads exit is
not part of the state. -/
inductive Pc where
  | running (j : Nat)
  | body_done
  deriving DecidableEq, Repr

/-- A worker thread in flight: its control point and the device calls it issued so far. -/
structure Thread where
  pc : Pc
  calls : List DeviceCall

/-- One step of an input worker thread (the first lambda of `hailors_infer`): the write of
iteration `j`, or the flush after the loop. Returns the thread after the step and the value
the step assigns to the shared `status` (`status = write_status`, `status = flush_status`),
`none` when it assigns nothing. The worker never reads `status`. -/
def input_thread_step (input_stream : InputVStream) (t : Thread) :
    Thread × Option hailo_status :=
  match t.pc with
  | .body_done => (t, none)
  | .running j =>
    let data := List.replicate input_stream.frame_size 0
    if j < 100 then
      let write_status := input_stream.write j ⟨data, data.length⟩
      let calls := t.calls ++ [DeviceCall.write ⟨data, data.length⟩]
      if write_status ≠ HAILO_SUCCESS then
        ({ pc := .body_done, calls := calls }, some write_status)
      else ({ pc := .running (j + 1), calls := calls }, none)
    else
      let flush_status := input_stream.flush
      let calls := t.calls ++ [DeviceCall.flush]
      if flush_status ≠ HAILO_SUCCESS then
        ({ pc := .body_done, calls := calls }, some flush_status)
      else ({ pc := .body_done, calls := calls }, none)

/-- One step of an output worker thread (the second lambda of `hailors_infer`): the read of
iteration `j`, or the end of the body once the loop is over. Returns the thread after the
step and the value the step assigns to the shared `status` (`status = read_status`),
`none` when it assigns nothing; `std::vector<uint8_t> data(n)` is value-initialised, so the
buffer is zero-filled. -/
def output_thread_step (output_stream : OutputVStream) (t : Thread) :
    Thread × Option hailo_status :=
  match t.pc with
  | .body_done => (t, none)
  | .running j =>
    let data := List.replicate output_stream.frame_size 0
    if j < 100 then
      let read_status := output_stream.read j ⟨data, data.length⟩
      let calls := t.calls ++ [DeviceCall.read ⟨data, data.length⟩]
      if read_status ≠ HAILO_SUCCESS then
        ({ pc := .body_done, calls := calls }, some read_status)
      else ({ pc := .running (j + 1), calls := calls }, none)
    else ({ pc := .body_done, calls := t.calls }, none)

/-- One step of worker `w`; a worker that was not spawned does nothing. -/
def thread_step (ins : List InputVStream) (outs : List OutputVStream) (w : Worker)
    (t : Thread) : Thread × Option hailo_status :=
  match w with
  | .input i =>
    match ins[i]? with
    | some s => input_thread_step s t
    | none => (t, none)
  | .output i =>
    match outs[i]? with
    | some s => output_thread_step s t
    | none => (t, none)

/-- The threads of one `hailors_infer` call between spawn and join: the shared `status`,
every worker thread, and the assignments made to `status` so far, each with the worker
that made it, in the order in which they were made. -/
structure InferState where
  status : hailo_status
  threads : Worker → Thread
  stores : List (Worker × hailo_status)

/-- The state once the threads are spawned: `status` is `HAILO_SUCCESS`, no worker has
made a call. -/
def infer_init : InferState :=
  { status := HAILO_SUCCESS, threads := fun _ => { pc := .running 0, calls := [] },
    stores := [] }

/-- The scheduler lets worker `w` take its next step. A step that assigns `status`
overwrites what is there, and the assignment is appended to `stores`. -/
def infer_step (ins : List InputVStream) (outs : List OutputVStream) (σ : InferState)
    (w : Worker) : InferState :=
  let r := thread_step ins outs w (σ.threads w)
  match r.2 with
  | some e =>
    { status := e
      threads := Function.update σ.threads w r.1
      stores := σ.stores ++ [(w, e)] }
  | none =>
    { status := σ.status
      threads := Function.update σ.threads w r.1
      stores := σ.stores }

/-- The state after the scheduler ran the workers in the order `schedule`, one step each
time a worker is named. -/
def infer_run (ins : List InputVStream) (outs : List OutputVStream)
    (schedule : List Worker) : InferState :=
  schedule.foldl (infer_step ins outs) infer_init

/-- The body of every spawned worker is through, so the joins of `hailors_infer` complete. -/
def joined (ins : List InputVStream) (outs : List OutputVStream) (σ : InferState) : Bool :=
  (workers ins.length outs.length).all fun w => decide ((σ.threads w).pc = .body_done)

/-- The function `hailors_infer`. `input_vstreams` and `output_vstreams` are the handle
arrays (`none` is a null array pointer), their lengths `input_count` and `output_count`.
After the null tests one thread is spawned per handle, the threads run interleaved as
`schedule` says, and once all are joined the final `status` is returned. `none`: the
schedule ends before the body of every worker is through, so the joins have not
completed. -/
def hailors_infer (network_group : Nat)
    (input_vstreams : Option (List InputVStream))
    (output_vstreams : Option (List OutputVStream)) (schedule : List Worker) :
    Option InferResult :=
  match input_vstreams, output_vstreams with
  | some ins, some outs =>
    if network_group = 0 then
      some { status := HAILO_INVALID_ARGUMENT, input_calls := [], output_calls := [] }
    else
      let σ := infer_run ins outs schedule
      if joined ins outs σ then
        some
          { status := σ.status
            input_calls :=
              (List.range ins.length).map fun i => (σ.threads (Worker.input i)).calls
            output_calls :=
              (List.range outs.length).map fun i => (σ.threads (Worker.output i)).calls }
      else none
  | _, _ => some { status := HAILO_INVALID_ARGUMENT, input_calls := [], output_calls := [] }

/-! ## Single-frame primitives -/

/-- Result of a single-frame call: the returned status and the device calls made. -/
structure FrameResult where
  status : hailo_status
  calls : List DeviceCall
  deriving DecidableEq, Repr

/-- The function `hailors_write_input_frame`. `input_vstream` is the handle (`none` is
null), `data` the caller buffer (`none` is a null pointer, `some bytes` the memory behind
it), `data_size` the size given. -/
def hailors_write_input_frame (input_vstream : Option InputVStream)
    (data : Option (List Nat)) (data_size : Nat) : FrameResult :=
  match input_vstream, data with
  | some vstream, some bytes =>
    let input_view : MemoryView := ⟨bytes, data_size⟩
    let status := vstream.write 0 input_view
    { status := status, calls := [DeviceCall.write input_view] }
  | _, _ => { status := HAILO_INVALID_ARGUMENT, calls := [] }

/-- The function `hailors_read_output_frame`. The second null test on the cast handle
cannot fire once the first has passed, so it has no branch here. -/
def hailors_read_output_frame (output_vstream : Option OutputVStream)
    (buffer : Option (List Nat)) (buffer_size : Nat) : FrameResult :=
  match output_vstream with
  | none => { status := HAILO_INVALID_ARGUMENT, calls := [] }
  | some vstream =>
    match buffer with
    | none => { status := HAILO_INVALID_ARGUMENT, calls := [] }
    | some bytes =>
      if buffer_size = 0 then { status := HAILO_INVALID_ARGUMENT, calls := [] }
      else
        let output_view : MemoryView := ⟨bytes, buffer_size⟩
        let status := vstream.read 0 output_view
        { status := status, calls := [DeviceCall.read output_view] }

/-! ## Session handles -/

/-- The `VDevice` objects of the process: the addresses that hold a live object. The
wrapper keeps no table of handles; this is the state of the allocator. -/
structure Heap where
  live : List Nat
  deriving DecidableEq, Repr

/-- The function `hailors_create_vdevice`. `vdevice_result` is what `VDevice::create()`
returned (on success the address of the new object), `vdevice` the content of the
out-parameter before the call. Returns the status, the out-parameter and the heap. -/
def hailors_create_vdevice (vdevice_result : Expected Nat) (vdevice : Nat) (heap : Heap) :
    hailo_status × Nat × Heap :=
  match vdevice_result with
  | .unexpected _ _ => (vdevice_result.status, vdevice, heap)
  | .value p => (HAILO_SUCCESS, p, { live := p :: heap.live })

/-- The function `hailors_release_vdevice`: `delete` on the handle, then
`return HAILO_SUCCESS`. `delete` does nothing on a null pointer and destroys the object at
an address that holds a live one. Applied to any other address (a dangling or foreign
pointer) it is undefined behaviour: the call has no defined result, `none`. -/
def hailors_release_vdevice (vdevice : Nat) (heap : Heap) : Option (hailo_status × Heap) :=
  if vdevice = 0 then some (HAILO_SUCCESS, heap)
  else if vdevice ∈ heap.live then
    some (HAILO_SUCCESS, { live := heap.live.erase vdevice })
  else none

/-! ## `hailors_configure_hef` -/

/-- The format types the wrapper asks for. -/
inductive hailo_format_type where
  | HAILO_FORMAT_TYPE_AUTO
  | HAILO_FORMAT_TYPE_FLOAT32
  deriving DecidableEq, Repr

/-- A parsed model (`Hef`), named by a token. -/
abbrev Hef := Nat

/-- Configure parameters derived by the runtime, named by a token. -/
abbrev ConfigureParams := Nat

/-- A map of vstream parameters made by the runtime, named by a token. -/
abbrev VStreamParams := Nat

/-- A `ConfiguredNetworkGroup` as the wrapper uses it: the address `get()` yields and the
outcomes of the four runtime calls made on it (the remaining arguments of
`make_*_vstream_params` are constants of the wrapper). -/
structure ConfiguredNetworkGroup where
  address : Nat
  make_input_vstream_params : hailo_format_type → Expected VStreamParams
  create_input_vstreams : VStreamParams → Expected (List InputVStream)
  make_output_vstream_params : hailo_format_type → Expected VStreamParams
  create_output_vstreams : VStreamParams → Expected (List OutputVStream)

/-- A `VDevice` as the wrapper uses it, with the static `Hef::create` beside it. An entry
`none` of the configured vector is an empty shared pointer. -/
structure VDevice where
  Hef_create : MemoryView → Expected Hef
  create_configure_params : Hef → Expected ConfigureParams
  configure : Hef → ConfigureParams → Expected (List (Option ConfiguredNetworkGroup))

/-- The out-parameters of `hailors_configure_hef`. The handle arrays are `none` for a null
array pointer. -/
structure ConfigureOut where
  network_group : Nat
  input_vstreams : Option (List InputVStream)
  input_count : Nat
  output_vstreams : Option (List OutputVStream)
  output_count : Nat
  input_frame_size : Nat
  output_frame_size : Nat

/-- Result of `hailors_configure_hef`: the returned status, the out-parameters after the
call, and the stream objects the call allocated with `new` that are still allocated when
it returns. -/
structure ConfigureResult where
  status : hailo_status
  out : ConfigureOut
  live_inputs : List InputVStream
  live_outputs : List OutputVStream

/-- The function `hailors_configure_hef`. `model` are the bytes behind the model pointer,
`out` the contents of the out-parameters before the call. -/
def hailors_configure_hef (vdevice : VDevice) (model : List Nat) (model_size : Nat)
    (out : ConfigureOut) : ConfigureResult :=
  let out := { out with input_count := 0, output_count := 0 }
  let model_memory_view : MemoryView := ⟨model, model_size⟩
  let hef_result := vdevice.Hef_create model_memory_view
  match hef_result with
  | .unexpected _ _ =>
    { status := hef_result.status, out := out, live_inputs := [], live_outputs := [] }
  | .value hef =>
  let configure_params := vdevice.create_configure_params hef
  match configure_params with
  | .unexpected _ _ =>
    { status := configure_params.status, out := out, live_inputs := [], live_outputs := [] }
  | .value params =>
  let network_groups_result := vdevice.configure hef params
  match network_groups_result with
  | .unexpected _ _ =>
    { status := network_groups_result.status, out := out, live_inputs := [],
      live_outputs := [] }
  | .value [] =>
    { status := network_groups_result.status, out := out, live_inputs := [],
      live_outputs := [] }
  | .value (none :: _) =>
    { status := HAILO_INVALID_OPERATION, out := out, live_inputs := [], live_outputs := [] }
  | .value (some configured_network_group :: _) =>
  let input_vstream_params :=
    configured_network_group.make_input_vstream_params .HAILO_FORMAT_TYPE_AUTO
  match input_vstream_params with
  | .unexpected _ _ =>
    { status := input_vstream_params.status, out := out, live_inputs := [],
      live_outputs := [] }
  | .value in_params =>
  let input_streams_result := configured_network_group.create_input_vstreams in_params
  match input_streams_result with
  | .unexpected _ _ =>
    { status := input_streams_result.status, out := out, live_inputs := [],
      live_outputs := [] }
  | .value input_streams =>
  let out := { out with input_count := input_streams.length }
  let out := { out with input_vstreams := some input_streams }
  let live_inputs := input_streams
  let out :=
    { out with
      input_frame_size :=
        match input_streams with
        | [] => 0
        | first :: _ => first.frame_size }
  let out := { out with input_count := input_streams.length }
  let output_vstream_params :=
    configured_network_group.make_output_vstream_params .HAILO_FORMAT_TYPE_FLOAT32
  match output_vstream_params with
  | .unexpected _ _ =>
    { status := output_vstream_params.status, out := out, live_inputs := live_inputs,
      live_outputs := [] }
  | .value out_params =>
  let output_streams_result := configured_network_group.create_output_vstreams out_params
  match output_streams_result with
  | .unexpected _ _ =>
    { status := output_streams_result.status, out := out, live_inputs := live_inputs,
      live_outputs := [] }
  | .value output_streams =>
  let out := { out with output_count := output_streams.length }
  let out := { out with output_vstreams := some output_streams }
  let live_outputs := output_streams
  let out :=
    { out with
      output_frame_size :=
        match output_streams with
        | [] => 0
        | first :: _ => first.frame_size }
  let out := { out with output_count := output_streams.length }
  let out := { out with network_group := configured_network_group.address }
  { status := HAILO_SUCCESS, out := out, live_inputs := live_inputs,
    live_outputs := live_outputs }

/-! ## Whole runs of the worker bodies -/

/-- What one worker thread did: the device calls it issued, in order, and the value it
assigned to the shared `status` (`none` when it never assigned it). -/
structure WorkerRun where
  calls : List DeviceCall
  store : Option hailo_status

/-- The `for (size_t j = 0; j < 100; ++j)` loop of an input worker, entered with `n`
iterations left (`n = 100 - j`). `some e`: the loop hit the `return` with `write_status = e`. -/
def input_write_loop (input_stream : InputVStream) (data : List Nat) :
    Nat → Nat → List DeviceCall → List DeviceCall × Option hailo_status
  | 0, _, calls => (calls, none)
  | n + 1, j, calls =>
    let write_status := input_stream.write j ⟨data, data.length⟩
    let calls := calls ++ [DeviceCall.write ⟨data, data.length⟩]
    if write_status ≠ HAILO_SUCCESS then (calls, some write_status)
    else input_write_loop input_stream data n (j + 1) calls

/-- The body of an input worker thread (the first lambda of `hailors_infer`) run from start
to return. -/
def input_worker (input_stream : InputVStream) : WorkerRun :=
  let data := List.replicate input_stream.frame_size 0
  match input_write_loop input_stream data 100 0 [] with
  | (calls, some write_status) => { calls := calls, store := some write_status }
  | (calls, none) =>
    let flush_status := input_stream.flush
    let calls := calls ++ [DeviceCall.flush]
    if flush_status ≠ HAILO_SUCCESS then { calls := calls, store := some flush_status }
    else { calls := calls, store := none }

/-- The `for (size_t j = 0; j < 100; ++j)` loop of an output worker, entered with `n`
iterations left. `some e`: the loop hit the `return` with `read_status = e`. -/
def output_read_loop (output_stream : OutputVStream) (data : List Nat) :
    Nat → Nat → List DeviceCall → List DeviceCall × Option hailo_status
  | 0, _, calls => (calls, none)
  | n + 1, j, calls =>
    let read_status := output_stream.read j ⟨data, data.length⟩
    let calls := calls ++ [DeviceCall.read ⟨data, data.length⟩]
    if read_status ≠ HAILO_SUCCESS then (calls, some read_status)
    else output_read_loop output_stream data n (j + 1) calls

/-- The body of an output worker thread (the second lambda of `hailors_infer`) run from
start to return. -/
def output_worker (output_stream : OutputVStream) : WorkerRun :=
  let data := List.replicate output_stream.frame_size 0
  match output_read_loop output_stream data 100 0 [] with
  | (calls, some read_status) => { calls := calls, store := some read_status }
  | (calls, none) => { calls := calls, store := none }

/-- The assignment to `status` made by a worker, looked up in the runs of the threads:
`some e` when the worker fails with `e`, `none` when it does not fail. -/
def worker_store (input_runs output_runs : List WorkerRun) : Worker → Option hailo_status
  | .input i => (input_runs[i]?).bind WorkerRun.store
  | .output i => (output_runs[i]?).bind WorkerRun.store

/-! ## Predicates, invariants and test doubles used in the statements -/

/-- The zero-filled buffer of `n` bytes, viewed whole. -/
def zero_frame (n : Nat) : MemoryView := ⟨List.replicate n 0, n⟩

/-- Every device call an input worker can make on the stream succeeds: each of the 100
writes of the zero-filled frame, and the flush. -/
def input_succeeds (s : InputVStream) : Prop :=
  (∀ j, j < 100 → s.write j (zero_frame s.frame_size) = HAILO_SUCCESS) ∧
    s.flush = HAILO_SUCCESS

/-- Every device call an output worker can make on the stream succeeds: each of the 100
reads into the frame buffer. -/
def output_succeeds (s : OutputVStream) : Prop :=
  ∀ j, j < 100 → s.read j (zero_frame s.frame_size) = HAILO_SUCCESS

instance (s : InputVStream) : Decidable (input_succeeds s) := by
  unfold input_succeeds
  infer_instance

instance (s : OutputVStream) : Decidable (output_succeeds s) := by
  unfold output_succeeds
  infer_instance

/-- Steps a running thread still needs at most before its body is through. -/
def steps_left (t : Thread) : Nat :=
  match t.pc with
  | .running j => max 1 (101 - j)
  | .body_done => 0

/-- What an input thread in flight has done is a prefix of the run of `input_worker`. -/
def input_thread_inv (s : InputVStream) (t : Thread) : Prop :=
  match t.pc with
  | .running j =>
    j ≤ 100 ∧ (∀ i, i < j → s.write i (zero_frame s.frame_size) = HAILO_SUCCESS) ∧
      t.calls = List.replicate j (DeviceCall.write (zero_frame s.frame_size))
  | .body_done => t.calls = (input_worker s).calls

/-- What an output thread in flight has done is a prefix of the run of `output_worker`. -/
def output_thread_inv (s : OutputVStream) (t : Thread) : Prop :=
  match t.pc with
  | .running j =>
    j ≤ 100 ∧ (∀ i, i < j → s.read i (zero_frame s.frame_size) = HAILO_SUCCESS) ∧
      t.calls = List.replicate j (DeviceCall.read (zero_frame s.frame_size))
  | .body_done => t.calls = (output_worker s).calls

/-- What worker `w` has done so far is a prefix of the run of its body. -/
def thread_inv (ins : List InputVStream) (outs : List OutputVStream) (w : Worker)
    (t : Thread) : Prop :=
  match w with
  | .input i => ∀ s, ins[i]? = some s → input_thread_inv s t
  | .output i => ∀ s, outs[i]? = some s → output_thread_inv s t

/-- The invariant of the interleaved run: every thread is a prefix of the run of its body,
`status` holds the value of the last assignment (`HAILO_SUCCESS` when there was none), and
`stores` holds exactly the assignments of the workers whose body is through: each is the
failure status of the worker that made it. -/
structure InferInv (ins : List InputVStream) (outs : List OutputVStream)
    (σ : InferState) : Prop where
  threads : ∀ w, thread_inv ins outs w (σ.threads w)
  status : σ.status =
    match σ.stores.getLast? with
    | some p => p.2
    | none => HAILO_SUCCESS
  stored : ∀ w e, (w, e) ∈ σ.stores →
    w ∈ workers ins.length outs.length ∧ (σ.threads w).pc = .body_done ∧
      worker_store (ins.map input_worker) (outs.map output_worker) w = some e
  recorded : ∀ w e, w ∈ workers ins.length outs.length → (σ.threads w).pc = .body_done →
    worker_store (ins.map input_worker) (outs.map output_worker) w = some e →
    (w, e) ∈ σ.stores

/-- A schedule that lets the workers `ws` take turns, `n` rounds of one step each. -/
def round_robin (ws : List Worker) : Nat → List Worker
  | 0 => []
  | n + 1 => ws ++ round_robin ws n

/-- A test double of an input stream on which every device call succeeds. -/
def ok_input (frame_size : Nat) : InputVStream :=
  { frame_size := frame_size, write := fun _ _ => HAILO_SUCCESS, flush := HAILO_SUCCESS }

/-- A test double of an output stream on which every device call succeeds. -/
def ok_output (frame_size : Nat) : OutputVStream :=
  { frame_size := frame_size, read := fun _ _ => HAILO_SUCCESS }

/-- A test double of an input stream whose write number `k` (counted from 1) returns `e`
and on which every other device call succeeds. -/
def failing_input (frame_size k : Nat) (e : hailo_status) : InputVStream :=
  { frame_size := frame_size
    write := fun j _ => if j + 1 = k then e else HAILO_SUCCESS
    flush := HAILO_SUCCESS }

/-- A test double of an output stream whose every read returns `e`. -/
def failing_output (frame_size : Nat) (e : hailo_status) : OutputVStream :=
  { frame_size := frame_size, read := fun _ _ => e }

/-- A test double of a network group that creates the given streams. -/
def ok_group (address : Nat) (ins : List InputVStream) (outs : List OutputVStream) :
    ConfiguredNetworkGroup :=
  { address := address
    make_input_vstream_params := fun _ => .value 1
    create_input_vstreams := fun _ => .value ins
    make_output_vstream_params := fun _ => .value 2
    create_output_vstreams := fun _ => .value outs }

/-- A test double of a network group that creates the given input streams and then fails
to derive the output stream parameters with status `e`. -/
def output_failing_group (address : Nat) (ins : List InputVStream) (e : hailo_status)
    (he : e ≠ HAILO_SUCCESS) : ConfiguredNetworkGroup :=
  { address := address
    make_input_vstream_params := fun _ => .value 1
    create_input_vstreams := fun _ => .value ins
    make_output_vstream_params := fun _ => .unexpected e he
    create_output_vstreams := fun _ => .value [] }

/-- A test double of a device that parses every model and whose `configure` yields the
given vector of network groups. -/
def vdevice_with_groups (groups : List (Option ConfiguredNetworkGroup)) : VDevice :=
  { Hef_create := fun _ => .value 1
    create_configure_params := fun _ => .value 1
    configure := fun _ _ => .value groups }

/-- Out-parameters as a caller may hold them before `hailors_configure_hef`. -/
def stale_out : ConfigureOut :=
  { network_group := 0, input_vstreams := none, input_count := 0, output_vstreams := none,
    output_count := 0, input_frame_size := 7, output_frame_size := 9 }

/-- During the call the runtime created the input streams `ins` on the selected network
group `g`: the model parsed, the configure parameters were derived, the configuration
yielded a vector whose first entry is `g`, and the input stream parameters and the input
streams were made. -/
def input_streams_created (vdevice : VDevice) (model : List Nat) (model_size : Nat)
    (g : ConfiguredNetworkGroup) (ins : List InputVStream) : Prop :=
  ∃ hef params rest in_params,
    vdevice.Hef_create ⟨model, model_size⟩ = .value hef ∧
    vdevice.create_configure_params hef = .value params ∧
    vdevice.configure hef params = .value (some g :: rest) ∧
    g.make_input_vstream_params .HAILO_FORMAT_TYPE_AUTO = .value in_params ∧
    g.create_input_vstreams in_params = .value ins

/-! ## Theorems -/

theorem view_replicate (n : Nat) :
    (⟨List.replicate n 0, (List.replicate n 0).length⟩ : MemoryView) = zero_frame n := by
  simp [zero_frame]

theorem input_write_loop_ok (s : InputVStream) (data : List Nat) :
    ∀ (n j : Nat) (calls : List DeviceCall),
      (∀ i, i < n → s.write (j + i) ⟨data, data.length⟩ = HAILO_SUCCESS) →
      input_write_loop s data n j calls =
        (calls ++ List.replicate n (DeviceCall.write ⟨data, data.length⟩), none) := by
  intro n
  induction n with
  | zero => intro j calls _; simp [input_write_loop]
  | succ n ih =>
    intro j calls h
    have h0 : s.write j ⟨data, data.length⟩ = HAILO_SUCCESS := by simpa using h 0 (by omega)
    have hs : ∀ i, i < n → s.write (j + 1 + i) ⟨data, data.length⟩ = HAILO_SUCCESS := by
      intro i hi
      have := h (i + 1) (by omega)
      rwa [show j + 1 + i = j + (i + 1) by omega]
    simp [input_write_loop, h0, ih (j + 1) _ hs, List.replicate_succ]

theorem input_write_loop_fail (s : InputVStream) (data : List Nat) (e : hailo_status)
    (he : e ≠ HAILO_SUCCESS) :
    ∀ (n j k : Nat) (calls : List DeviceCall), k < n →
      (∀ i, i < k → s.write (j + i) ⟨data, data.length⟩ = HAILO_SUCCESS) →
      s.write (j + k) ⟨data, data.length⟩ = e →
      input_write_loop s data n j calls =
        (calls ++ List.replicate (k + 1) (DeviceCall.write ⟨data, data.length⟩), some e) := by
  intro n
  induction n with
  | zero => intro j k calls hk; omega
  | succ n ih =>
    intro j k calls hk hpre hfail
    cases k with
    | zero =>
      have h0 : s.write j ⟨data, data.length⟩ = e := by simpa using hfail
      simp [input_write_loop, h0, he]
    | succ k =>
      have h0 : s.write j ⟨data, data.length⟩ = HAILO_SUCCESS := by
        simpa using hpre 0 (by omega)
      have hs : ∀ i, i < k → s.write (j + 1 + i) ⟨data, data.length⟩ = HAILO_SUCCESS := by
        intro i hi
        have := hpre (i + 1) (by omega)
        rwa [show j + 1 + i = j + (i + 1) by omega]
      have hf : s.write (j + 1 + k) ⟨data, data.length⟩ = e := by
        rwa [show j + 1 + k = j + (k + 1) by omega]
      simp [input_write_loop, h0, ih (j + 1) k _ (by omega) hs hf, List.replicate_succ]

theorem input_write_loop_some (s : InputVStream) (data : List Nat) :
    ∀ (n j : Nat) (calls : List DeviceCall) (e : hailo_status),
      (input_write_loop s data n j calls).2 = some e →
      e ≠ HAILO_SUCCESS ∧ ∃ i, i < n ∧ s.write (j + i) ⟨data, data.length⟩ = e := by
  intro n
  induction n with
  | zero => intro j calls e h; simp [input_write_loop] at h
  | succ n ih =>
    intro j calls e h
    by_cases h0 : s.write j ⟨data, data.length⟩ = HAILO_SUCCESS
    · simp only [input_write_loop, h0, ne_eq, not_true_eq_false, if_false] at h
      obtain ⟨hne, i, hi, hw⟩ := ih (j + 1) _ e h
      exact ⟨hne, i + 1, by omega, by rwa [show j + (i + 1) = j + 1 + i by omega]⟩
    · simp only [input_write_loop, ne_eq, h0, not_false_eq_true, if_true] at h
      have he : s.write j ⟨data, data.length⟩ = e := by simpa using h
      exact ⟨he ▸ h0, 0, by omega, by simpa using he⟩

theorem output_read_loop_ok (s : OutputVStream) (data : List Nat) :
    ∀ (n j : Nat) (calls : List DeviceCall),
      (∀ i, i < n → s.read (j + i) ⟨data, data.length⟩ = HAILO_SUCCESS) →
      output_read_loop s data n j calls =
        (calls ++ List.replicate n (DeviceCall.read ⟨data, data.length⟩), none) := by
  intro n
  induction n with
  | zero => intro j calls _; simp [output_read_loop]
  | succ n ih =>
    intro j calls h
    have h0 : s.read j ⟨data, data.length⟩ = HAILO_SUCCESS := by simpa using h 0 (by omega)
    have hs : ∀ i, i < n → s.read (j + 1 + i) ⟨data, data.length⟩ = HAILO_SUCCESS := by
      intro i hi
      have := h (i + 1) (by omega)
      rwa [show j + 1 + i = j + (i + 1) by omega]
    simp [output_read_loop, h0, ih (j + 1) _ hs, List.replicate_succ]

theorem output_read_loop_fail (s : OutputVStream) (data : List Nat) (e : hailo_status)
    (he : e ≠ HAILO_SUCCESS) :
    ∀ (n j k : Nat) (calls : List DeviceCall), k < n →
      (∀ i, i < k → s.read (j + i) ⟨data, data.length⟩ = HAILO_SUCCESS) →
      s.read (j + k) ⟨data, data.length⟩ = e →
      output_read_loop s data n j calls =
        (calls ++ List.replicate (k + 1) (DeviceCall.read ⟨data, data.length⟩), some e) := by
  intro n
  induction n with
  | zero => intro j k calls hk; omega
  | succ n ih =>
    intro j k calls hk hpre hfail
    cases k with
    | zero =>
      have h0 : s.read j ⟨data, data.length⟩ = e := by simpa using hfail
      simp [output_read_loop, h0, he]
    | succ k =>
      have h0 : s.read j ⟨data, data.length⟩ = HAILO_SUCCESS := by
        simpa using hpre 0 (by omega)
      have hs : ∀ i, i < k → s.read (j + 1 + i) ⟨data, data.length⟩ = HAILO_SUCCESS := by
        intro i hi
        have := hpre (i + 1) (by omega)
        rwa [show j + 1 + i = j + (i + 1) by omega]
      have hf : s.read (j + 1 + k) ⟨data, data.length⟩ = e := by
        rwa [show j + 1 + k = j + (k + 1) by omega]
      simp [output_read_loop, h0, ih (j + 1) k _ (by omega) hs hf, List.replicate_succ]

theorem output_read_loop_some (s : OutputVStream) (data : List Nat) :
    ∀ (n j : Nat) (calls : List DeviceCall) (e : hailo_status),
      (output_read_loop s data n j calls).2 = some e →
      e ≠ HAILO_SUCCESS ∧ ∃ i, i < n ∧ s.read (j + i) ⟨data, data.length⟩ = e := by
  intro n
  induction n with
  | zero => intro j calls e h; simp [output_read_loop] at h
  | succ n ih =>
    intro j calls e h
    by_cases h0 : s.read j ⟨data, data.length⟩ = HAILO_SUCCESS
    · simp only [output_read_loop, h0, ne_eq, not_true_eq_false, if_false] at h
      obtain ⟨hne, i, hi, hw⟩ := ih (j + 1) _ e h
      exact ⟨hne, i + 1, by omega, by rwa [show j + (i + 1) = j + 1 + i by omega]⟩
    · simp only [output_read_loop, ne_eq, h0, not_false_eq_true, if_true] at h
      have he : s.read j ⟨data, data.length⟩ = e := by simpa using h
      exact ⟨he ▸ h0, 0, by omega, by simpa using he⟩

theorem input_worker_of_loop_some (s : InputVStream) (calls : List DeviceCall)
    (w : hailo_status)
    (hl : input_write_loop s (List.replicate s.frame_size 0) 100 0 [] = (calls, some w)) :
    input_worker s = { calls := calls, store := some w } := by
  simp only [input_worker, hl]

theorem input_worker_of_loop_none (s : InputVStream) (calls : List DeviceCall)
    (hl : input_write_loop s (List.replicate s.frame_size 0) 100 0 [] = (calls, none)) :
    input_worker s =
      if s.flush ≠ HAILO_SUCCESS then
        { calls := calls ++ [DeviceCall.flush], store := some s.flush }
      else { calls := calls ++ [DeviceCall.flush], store := none } := by
  simp only [input_worker, hl]

theorem output_worker_of_loop (s : OutputVStream) (calls : List DeviceCall)
    (st : Option hailo_status)
    (hl : output_read_loop s (List.replicate s.frame_size 0) 100 0 [] = (calls, st)) :
    output_worker s = { calls := calls, store := st } := by
  cases st <;> simp only [output_worker, hl]

theorem input_worker_ok (s : InputVStream) (h : input_succeeds s) :
    input_worker s =
      { calls := List.replicate 100 (DeviceCall.write (zero_frame s.frame_size)) ++
          [DeviceCall.flush],
        store := none } := by
  obtain ⟨hw, hf⟩ := h
  have hl := input_write_loop_ok s (List.replicate s.frame_size 0) 100 0 []
    (by intro i hi; rw [view_replicate]; simpa using hw i hi)
  simp only [input_worker, hl, hf, view_replicate]
  simp

theorem input_worker_fail (s : InputVStream) (k : Nat) (e : hailo_status)
    (he : e ≠ HAILO_SUCCESS) (hk : k < 100)
    (hpre : ∀ i, i < k → s.write i (zero_frame s.frame_size) = HAILO_SUCCESS)
    (hfail : s.write k (zero_frame s.frame_size) = e) :
    input_worker s =
      { calls := List.replicate (k + 1) (DeviceCall.write (zero_frame s.frame_size)),
        store := some e } := by
  have hl := input_write_loop_fail s (List.replicate s.frame_size 0) e he 100 0 k [] hk
    (by intro i hi; rw [view_replicate]; simpa using hpre i hi)
    (by rw [view_replicate]; simpa using hfail)
  simp only [input_worker, hl, view_replicate]
  simp

theorem input_worker_store_ne (s : InputVStream) (e : hailo_status)
    (h : (input_worker s).store = some e) : e ≠ HAILO_SUCCESS := by
  rcases hl : input_write_loop s (List.replicate s.frame_size 0) 100 0 [] with ⟨calls, _ | w⟩
  · rw [input_worker_of_loop_none s calls hl] at h
    by_cases hf : s.flush = HAILO_SUCCESS
    · simp [hf] at h
    · simp only [ne_eq, hf, not_false_eq_true, if_true, Option.some.injEq] at h
      exact h ▸ hf
  · rw [input_worker_of_loop_some s calls w hl] at h
    have := (input_write_loop_some s _ 100 0 [] w (by rw [hl])).1
    simp only [Option.some.injEq] at h
    exact h ▸ this

theorem input_worker_store_none_iff (s : InputVStream) :
    (input_worker s).store = none ↔ input_succeeds s := by
  constructor
  · intro h
    rcases hl : input_write_loop s (List.replicate s.frame_size 0) 100 0 [] with
      ⟨calls, _ | w⟩
    · rw [input_worker_of_loop_none s calls hl] at h
      by_cases hf : s.flush = HAILO_SUCCESS
      · refine ⟨?_, hf⟩
        intro j hj
        by_contra hne
        -- the first failing write would have ended the loop with a store
        have hex : ∃ k, k < 100 ∧ s.write k (zero_frame s.frame_size) ≠ HAILO_SUCCESS :=
          ⟨j, hj, hne⟩
        classical
        let k := Nat.find hex
        have hk : k < 100 ∧ s.write k (zero_frame s.frame_size) ≠ HAILO_SUCCESS :=
          Nat.find_spec hex
        have hmin : ∀ i, i < k → s.write i (zero_frame s.frame_size) = HAILO_SUCCESS := by
          intro i hi
          by_contra hc
          exact Nat.find_min hex hi ⟨by omega, hc⟩
        have := input_write_loop_fail s (List.replicate s.frame_size 0) _ hk.2 100 0 k []
          hk.1 (by intro i hi; rw [view_replicate]; simpa using hmin i hi)
          (by rw [view_replicate]; simp)
        rw [hl] at this
        simp at this
      · simp [hf] at h
    · rw [input_worker_of_loop_some s calls w hl] at h
      simp at h
  · intro h
    rw [input_worker_ok s h]

theorem output_worker_ok (s : OutputVStream) (h : output_succeeds s) :
    output_worker s =
      { calls := List.replicate 100 (DeviceCall.read (zero_frame s.frame_size)),
        store := none } := by
  have hl := output_read_loop_ok s (List.replicate s.frame_size 0) 100 0 []
    (by intro i hi; rw [view_replicate]; simpa using h i hi)
  simp only [output_worker, hl, view_replicate]
  simp

theorem output_worker_fail (s : OutputVStream) (k : Nat) (e : hailo_status)
    (he : e ≠ HAILO_SUCCESS) (hk : k < 100)
    (hpre : ∀ i, i < k → s.read i (zero_frame s.frame_size) = HAILO_SUCCESS)
    (hfail : s.read k (zero_frame s.frame_size) = e) :
    output_worker s =
      { calls := List.replicate (k + 1) (DeviceCall.read (zero_frame s.frame_size)),
        store := some e } := by
  have hl := output_read_loop_fail s (List.replicate s.frame_size 0) e he 100 0 k [] hk
    (by intro i hi; rw [view_replicate]; simpa using hpre i hi)
    (by rw [view_replicate]; simpa using hfail)
  simp only [output_worker, hl, view_replicate]
  simp

theorem output_worker_store_ne (s : OutputVStream) (e : hailo_status)
    (h : (output_worker s).store = some e) : e ≠ HAILO_SUCCESS := by
  rcases hl : output_read_loop s (List.replicate s.frame_size 0) 100 0 [] with ⟨calls, st⟩
  rw [output_worker_of_loop s calls st hl] at h
  simp only at h
  subst h
  exact (output_read_loop_some s _ 100 0 [] e (by rw [hl])).1

theorem output_worker_store_none_iff (s : OutputVStream) :
    (output_worker s).store = none ↔ output_succeeds s := by
  constructor
  · intro h
    rcases hl : output_read_loop s (List.replicate s.frame_size 0) 100 0 [] with ⟨calls, st⟩
    rw [output_worker_of_loop s calls st hl] at h
    simp only at h
    subst h
    intro j hj
    by_contra hne
    have hex : ∃ k, k < 100 ∧ s.read k (zero_frame s.frame_size) ≠ HAILO_SUCCESS :=
      ⟨j, hj, hne⟩
    classical
    let k := Nat.find hex
    have hk : k < 100 ∧ s.read k (zero_frame s.frame_size) ≠ HAILO_SUCCESS :=
      Nat.find_spec hex
    have hmin : ∀ i, i < k → s.read i (zero_frame s.frame_size) = HAILO_SUCCESS := by
      intro i hi
      by_contra hc
      exact Nat.find_min hex hi ⟨by omega, hc⟩
    have := output_read_loop_fail s (List.replicate s.frame_size 0) _ hk.2 100 0 k []
      hk.1 (by intro i hi; rw [view_replicate]; simpa using hmin i hi)
      (by rw [view_replicate]; simp)
    rw [hl] at this
    simp at this
  · intro h
    rw [output_worker_ok s h]

theorem worker_store_input (ins : List InputVStream) (outs : List OutputVStream) (i : Nat) :
    worker_store (ins.map input_worker) (outs.map output_worker) (Worker.input i) =
      (ins[i]?).bind fun s => (input_worker s).store := by
  simp only [worker_store, List.getElem?_map]
  cases ins[i]? <;> rfl

theorem worker_store_output (ins : List InputVStream) (outs : List OutputVStream) (i : Nat) :
    worker_store (ins.map input_worker) (outs.map output_worker) (Worker.output i) =
      (outs[i]?).bind fun s => (output_worker s).store := by
  simp only [worker_store, List.getElem?_map]
  cases outs[i]? <;> rfl

theorem worker_store_ne (ins : List InputVStream) (outs : List OutputVStream) (w : Worker)
    (e : hailo_status)
    (h : worker_store (ins.map input_worker) (outs.map output_worker) w = some e) :
    e ≠ HAILO_SUCCESS := by
  cases w with
  | input i =>
    rw [worker_store_input] at h
    cases hs : ins[i]? with
    | none => simp [hs] at h
    | some s =>
      rw [hs] at h
      exact input_worker_store_ne s e h
  | output i =>
    rw [worker_store_output] at h
    cases hs : outs[i]? with
    | none => simp [hs] at h
    | some s =>
      rw [hs] at h
      exact output_worker_store_ne s e h

theorem all_stores_none_iff (ins : List InputVStream) (outs : List OutputVStream) :
    (∀ w, w ∈ workers ins.length outs.length →
        worker_store (ins.map input_worker) (outs.map output_worker) w = none) ↔
      (∀ s, s ∈ ins → input_succeeds s) ∧ (∀ s, s ∈ outs → output_succeeds s) := by
  constructor
  · intro h
    constructor
    · intro s hs
      obtain ⟨i, hi, rfl⟩ := List.mem_iff_getElem.mp hs
      have := h (Worker.input i) (by simp [workers, hi])
      rw [worker_store_input, List.getElem?_eq_getElem hi] at this
      exact (input_worker_store_none_iff _).mp this
    · intro s hs
      obtain ⟨i, hi, rfl⟩ := List.mem_iff_getElem.mp hs
      have := h (Worker.output i) (by simp [workers, hi])
      rw [worker_store_output, List.getElem?_eq_getElem hi] at this
      exact (output_worker_store_none_iff _).mp this
  · rintro ⟨hin, hout⟩ w hw
    simp only [workers, List.mem_append, List.mem_map, List.mem_range] at hw
    rcases hw with ⟨i, hi, rfl⟩ | ⟨i, hi, rfl⟩
    · rw [worker_store_input, List.getElem?_eq_getElem hi]
      exact (input_worker_store_none_iff _).mpr (hin _ (List.getElem_mem _))
    · rw [worker_store_output, List.getElem?_eq_getElem hi]
      exact (output_worker_store_none_iff _).mpr (hout _ (List.getElem_mem _))

theorem input_thread_step_spec (s : InputVStream) (t : Thread)
    (hinv : input_thread_inv s t) :
    input_thread_inv s (input_thread_step s t).1 ∧
      (t.pc = .body_done → input_thread_step s t = (t, none)) ∧
      ((input_thread_step s t).1.pc ≠ .body_done → (input_thread_step s t).2 = none) ∧
      (t.pc ≠ .body_done → (input_thread_step s t).1.pc = .body_done →
        (input_thread_step s t).2 = (input_worker s).store) := by
  obtain ⟨pc, calls⟩ := t
  cases pc with
  | body_done =>
    refine ⟨?_, ?_, ?_, ?_⟩
    · simpa [input_thread_step] using hinv
    · intro _; rfl
    · intro _; rfl
    · intro h; exact absurd rfl h
  | running j =>
    simp only [input_thread_inv] at hinv
    obtain ⟨hj, hpre, hcalls⟩ := hinv
    by_cases hlt : j < 100
    · by_cases hw : s.write j (zero_frame s.frame_size) = HAILO_SUCCESS
      · have hstep : input_thread_step s { pc := .running j, calls := calls } =
            ({ pc := .running (j + 1),
               calls := calls ++ [DeviceCall.write (zero_frame s.frame_size)] }, none) := by
          have hw' := hw
          simp only [zero_frame] at hw'
          simp [input_thread_step, zero_frame, hlt, hw']
        rw [hstep]
        refine ⟨?_, ?_, ?_, ?_⟩
        · refine ⟨by omega, ?_, ?_⟩
          · intro i hi
            rcases Nat.lt_succ_iff_lt_or_eq.mp hi with h | h
            · exact hpre i h
            · exact h ▸ hw
          · simp only at hcalls ⊢
            rw [hcalls, List.replicate_succ']
        · intro h; simp at h
        · intro _; rfl
        · intro _ h; simp at h
      · have hstep : input_thread_step s { pc := .running j, calls := calls } =
            ({ pc := .body_done,
               calls := calls ++ [DeviceCall.write (zero_frame s.frame_size)] },
              some (s.write j (zero_frame s.frame_size))) := by
          have hw' := hw
          simp only [zero_frame] at hw'
          simp [input_thread_step, zero_frame, hlt, hw']
        have hrun := input_worker_fail s j _ hw hlt hpre rfl
        rw [hstep]
        refine ⟨?_, ?_, ?_, ?_⟩
        · simp only [input_thread_inv] at hcalls ⊢
          rw [hrun, hcalls, List.replicate_succ']
        · intro h; simp at h
        · intro h; simp at h
        · intro _ _; simp [hrun]
    · have hj100 : j = 100 := by omega
      subst hj100
      have hall : input_write_loop s (List.replicate s.frame_size 0) 100 0 [] =
          ([] ++ List.replicate 100 (DeviceCall.write (zero_frame s.frame_size)), none) := by
        have := input_write_loop_ok s (List.replicate s.frame_size 0) 100 0 []
          (by intro i hi; rw [view_replicate]; simpa using hpre i hi)
        rwa [view_replicate] at this
      have hrun := input_worker_of_loop_none s _ hall
      by_cases hf : s.flush = HAILO_SUCCESS
      · have hstep : input_thread_step s { pc := .running 100, calls := calls } =
            ({ pc := .body_done, calls := calls ++ [DeviceCall.flush] }, none) := by
          simp [input_thread_step, hf]
        rw [hstep]
        refine ⟨?_, ?_, ?_, ?_⟩
        · simp only [input_thread_inv]
          rw [hrun, hcalls]
          simp [hf]
        · intro h; simp at h
        · intro _; rfl
        · intro _ _; rw [hrun]; simp [hf]
      · have hstep : input_thread_step s { pc := .running 100, calls := calls } =
            ({ pc := .body_done, calls := calls ++ [DeviceCall.flush] }, some s.flush) := by
          simp [input_thread_step, hf]
        rw [hstep]
        refine ⟨?_, ?_, ?_, ?_⟩
        · simp only [input_thread_inv]
          rw [hrun, hcalls]
          simp [hf]
        · intro h; simp at h
        · intro h; simp at h
        · intro _ _; rw [hrun]; simp [hf]

theorem output_thread_step_spec (s : OutputVStream) (t : Thread)
    (hinv : output_thread_inv s t) :
    output_thread_inv s (output_thread_step s t).1 ∧
      (t.pc = .body_done → output_thread_step s t = (t, none)) ∧
      ((output_thread_step s t).1.pc ≠ .body_done → (output_thread_step s t).2 = none) ∧
      (t.pc ≠ .body_done → (output_thread_step s t).1.pc = .body_done →
        (output_thread_step s t).2 = (output_worker s).store) := by
  obtain ⟨pc, calls⟩ := t
  cases pc with
  | body_done =>
    refine ⟨?_, ?_, ?_, ?_⟩
    · simpa [output_thread_step] using hinv
    · intro _; rfl
    · intro _; rfl
    · intro h; exact absurd rfl h
  | running j =>
    simp only [output_thread_inv] at hinv
    obtain ⟨hj, hpre, hcalls⟩ := hinv
    by_cases hlt : j < 100
    · by_cases hw : s.read j (zero_frame s.frame_size) = HAILO_SUCCESS
      · have hstep : output_thread_step s { pc := .running j, calls := calls } =
            ({ pc := .running (j + 1),
               calls := calls ++ [DeviceCall.read (zero_frame s.frame_size)] }, none) := by
          have hw' := hw
          simp only [zero_frame] at hw'
          simp [output_thread_step, zero_frame, hlt, hw']
        rw [hstep]
        refine ⟨?_, ?_, ?_, ?_⟩
        · refine ⟨by omega, ?_, ?_⟩
          · intro i hi
            rcases Nat.lt_succ_iff_lt_or_eq.mp hi with h | h
            · exact hpre i h
            · exact h ▸ hw
          · simp only at hcalls ⊢
            rw [hcalls, List.replicate_succ']
        · intro h; simp at h
        · intro _; rfl
        · intro _ h; simp at h
      · have hstep : output_thread_step s { pc := .running j, calls := calls } =
            ({ pc := .body_done,
               calls := calls ++ [DeviceCall.read (zero_frame s.frame_size)] },
              some (s.read j (zero_frame s.frame_size))) := by
          have hw' := hw
          simp only [zero_frame] at hw'
          simp [output_thread_step, zero_frame, hlt, hw']
        have hrun := output_worker_fail s j _ hw hlt hpre rfl
        rw [hstep]
        refine ⟨?_, ?_, ?_, ?_⟩
        · simp only [output_thread_inv] at hcalls ⊢
          rw [hrun, hcalls, List.replicate_succ']
        · intro h; simp at h
        · intro h; simp at h
        · intro _ _; simp [hrun]
    · have hj100 : j = 100 := by omega
      subst hj100
      have hrun := output_worker_ok s hpre
      have hstep : output_thread_step s { pc := .running 100, calls := calls } =
          ({ pc := .body_done, calls := calls }, none) := by
        simp [output_thread_step]
      rw [hstep]
      refine ⟨?_, ?_, ?_, ?_⟩
      · simp only [output_thread_inv]
        rw [hrun, hcalls]
      · intro h; simp at h
      · intro _; rfl
      · intro _ _; rw [hrun]

theorem mem_workers_input (n m i : Nat) : Worker.input i ∈ workers n m ↔ i < n := by
  simp [workers]

theorem mem_workers_output (n m i : Nat) : Worker.output i ∈ workers n m ↔ i < m := by
  simp [workers]

theorem thread_step_unspawned (ins : List InputVStream) (outs : List OutputVStream)
    (w : Worker) (t : Thread) (hw : w ∉ workers ins.length outs.length) :
    thread_step ins outs w t = (t, none) := by
  cases w with
  | input i =>
    have hi : ¬ i < ins.length := fun h => hw ((mem_workers_input _ _ _).mpr h)
    simp [thread_step, List.getElem?_eq_none (Nat.le_of_not_lt hi)]
  | output i =>
    have hi : ¬ i < outs.length := fun h => hw ((mem_workers_output _ _ _).mpr h)
    simp [thread_step, List.getElem?_eq_none (Nat.le_of_not_lt hi)]

theorem thread_step_spec (ins : List InputVStream) (outs : List OutputVStream) (w : Worker)
    (t : Thread) (hinv : thread_inv ins outs w t) :
    thread_inv ins outs w (thread_step ins outs w t).1 ∧
      (t.pc = .body_done → thread_step ins outs w t = (t, none)) ∧
      ((thread_step ins outs w t).1.pc ≠ .body_done → (thread_step ins outs w t).2 = none) ∧
      (t.pc ≠ .body_done → (thread_step ins outs w t).1.pc = .body_done →
        (thread_step ins outs w t).2 =
          worker_store (ins.map input_worker) (outs.map output_worker) w) := by
  cases w with
  | input i =>
    cases hs : ins[i]? with
    | none =>
      have hstep : thread_step ins outs (Worker.input i) t = (t, none) := by
        simp [thread_step, hs]
      rw [hstep]
      exact ⟨hinv, fun _ => rfl, fun _ => rfl, fun h1 h2 => absurd h2 h1⟩
    | some s =>
      have hstep : thread_step ins outs (Worker.input i) t = input_thread_step s t := by
        simp [thread_step, hs]
      have hspec := input_thread_step_spec s t (hinv s hs)
      rw [hstep, worker_store_input, hs]
      refine ⟨?_, hspec.2.1, hspec.2.2.1, hspec.2.2.2⟩
      intro s' hs'
      rw [hs] at hs'
      cases hs'
      exact hspec.1
  | output i =>
    cases hs : outs[i]? with
    | none =>
      have hstep : thread_step ins outs (Worker.output i) t = (t, none) := by
        simp [thread_step, hs]
      rw [hstep]
      exact ⟨hinv, fun _ => rfl, fun _ => rfl, fun h1 h2 => absurd h2 h1⟩
    | some s =>
      have hstep : thread_step ins outs (Worker.output i) t = output_thread_step s t := by
        simp [thread_step, hs]
      have hspec := output_thread_step_spec s t (hinv s hs)
      rw [hstep, worker_store_output, hs]
      refine ⟨?_, hspec.2.1, hspec.2.2.1, hspec.2.2.2⟩
      intro s' hs'
      rw [hs] at hs'
      cases hs'
      exact hspec.1

theorem infer_step_threads (ins : List InputVStream) (outs : List OutputVStream)
    (σ : InferState) (w : Worker) :
    (infer_step ins outs σ w).threads =
      Function.update σ.threads w (thread_step ins outs w (σ.threads w)).1 := by
  unfold infer_step
  cases h : (thread_step ins outs w (σ.threads w)).2 <;> simp [h]

theorem infer_step_of_none (ins : List InputVStream) (outs : List OutputVStream)
    (σ : InferState) (w : Worker) (h : (thread_step ins outs w (σ.threads w)).2 = none) :
    (infer_step ins outs σ w).status = σ.status ∧
      (infer_step ins outs σ w).stores = σ.stores := by
  unfold infer_step
  simp [h]

theorem infer_step_of_some (ins : List InputVStream) (outs : List OutputVStream)
    (σ : InferState) (w : Worker) (e : hailo_status)
    (h : (thread_step ins outs w (σ.threads w)).2 = some e) :
    (infer_step ins outs σ w).status = e ∧
      (infer_step ins outs σ w).stores = σ.stores ++ [(w, e)] := by
  unfold infer_step
  simp [h]

theorem infer_init_inv (ins : List InputVStream) (outs : List OutputVStream) :
    InferInv ins outs infer_init := by
  refine ⟨?_, ?_, ?_, ?_⟩
  · intro w
    cases w with
    | input i =>
      intro s _
      exact ⟨by omega, fun i hi => absurd hi (Nat.not_lt_zero i), rfl⟩
    | output i =>
      intro s _
      exact ⟨by omega, fun i hi => absurd hi (Nat.not_lt_zero i), rfl⟩
  · simp [infer_init]
  · intro w e h
    simp [infer_init] at h
  · intro w e _ h
    simp [infer_init] at h

theorem infer_step_inv (ins : List InputVStream) (outs : List OutputVStream)
    (σ : InferState) (w : Worker) (h : InferInv ins outs σ) :
    InferInv ins outs (infer_step ins outs σ w) := by
  obtain ⟨hinv, heq, hrun, hnew⟩ := thread_step_spec ins outs w (σ.threads w) (h.threads w)
  have hthreads : ∀ w', thread_inv ins outs w' ((infer_step ins outs σ w).threads w') := by
    intro w'
    rw [infer_step_threads]
    by_cases hw : w' = w
    · subst hw
      simpa using hinv
    · simpa [Function.update_noteq hw] using h.threads w'
  have hself : (infer_step ins outs σ w).threads w =
      (thread_step ins outs w (σ.threads w)).1 := by
    rw [infer_step_threads]; simp
  have hother : ∀ w', w' ≠ w → (infer_step ins outs σ w).threads w' = σ.threads w' := by
    intro w' hw
    rw [infer_step_threads]; simp [Function.update_noteq hw]
  cases hr : (thread_step ins outs w (σ.threads w)).2 with
  | none =>
    obtain ⟨hst, hlog⟩ := infer_step_of_none ins outs σ w hr
    refine ⟨hthreads, ?_, ?_, ?_⟩
    · rw [hst, hlog]; exact h.status
    · intro w' e hmem
      rw [hlog] at hmem
      obtain ⟨h1, h2, h3⟩ := h.stored w' e hmem
      refine ⟨h1, ?_, h3⟩
      by_cases hw : w' = w
      · subst hw
        rw [hself, heq h2]
        exact h2
      · rw [hother w' hw]; exact h2
    · intro w' e hw' hpc hstore
      rw [hlog]
      by_cases hw : w' = w
      · subst hw
        rw [hself] at hpc
        by_cases hold : (σ.threads w').pc = .body_done
        · exact h.recorded w' e hw' hold hstore
        · have := hnew hold hpc
          rw [hr, hstore] at this
          cases this
      · rw [hother w' hw] at hpc
        exact h.recorded w' e hw' hpc hstore
  | some e =>
    obtain ⟨hst, hlog⟩ := infer_step_of_some ins outs σ w e hr
    have hold : (σ.threads w).pc ≠ .body_done := by
      intro hc
      rw [heq hc] at hr
      cases hr
    have hpc : (thread_step ins outs w (σ.threads w)).1.pc = .body_done := by
      by_contra hc
      rw [hrun hc] at hr
      cases hr
    have hstore : worker_store (ins.map input_worker) (outs.map output_worker) w = some e := by
      rw [← hnew hold hpc, hr]
    have hspawned : w ∈ workers ins.length outs.length := by
      by_contra hc
      rw [thread_step_unspawned ins outs w _ hc] at hr
      cases hr
    refine ⟨hthreads, ?_, ?_, ?_⟩
    · rw [hst, hlog]; simp
    · intro w' e' hmem
      rw [hlog, List.mem_append, List.mem_singleton] at hmem
      rcases hmem with hmem | hmem
      · obtain ⟨h1, h2, h3⟩ := h.stored w' e' hmem
        have hw : w' ≠ w := fun hc => hold (hc ▸ h2)
        exact ⟨h1, by rw [hother w' hw]; exact h2, h3⟩
      · cases hmem
        exact ⟨hspawned, by rw [hself]; exact hpc, hstore⟩
    · intro w' e' hw' hpc' hstore'
      rw [hlog, List.mem_append, List.mem_singleton]
      by_cases hw : w' = w
      · subst hw
        rw [hstore] at hstore'
        cases hstore'
        exact Or.inr rfl
      · rw [hother w' hw] at hpc'
        exact Or.inl (h.recorded w' e' hw' hpc' hstore')

theorem infer_foldl_inv (ins : List InputVStream) (outs : List OutputVStream) :
    ∀ (schedule : List Worker) (σ : InferState), InferInv ins outs σ →
      InferInv ins outs (schedule.foldl (infer_step ins outs) σ) := by
  intro schedule
  induction schedule with
  | nil => intro σ h; exact h
  | cons w l ih => intro σ h; exact ih _ (infer_step_inv ins outs σ w h)

theorem infer_run_inv (ins : List InputVStream) (outs : List OutputVStream)
    (schedule : List Worker) : InferInv ins outs (infer_run ins outs schedule) :=
  infer_foldl_inv ins outs schedule infer_init (infer_init_inv ins outs)

theorem joined_iff (ins : List InputVStream) (outs : List OutputVStream) (σ : InferState) :
    joined ins outs σ = true ↔
      ∀ w, w ∈ workers ins.length outs.length → (σ.threads w).pc = .body_done := by
  simp [joined, List.all_eq_true]

theorem steps_left_input_step (s : InputVStream) (t : Thread) :
    steps_left (input_thread_step s t).1 ≤ steps_left t - 1 := by
  obtain ⟨pc, calls⟩ := t
  cases pc with
  | body_done => simp [input_thread_step, steps_left]
  | running j =>
    simp only [input_thread_step]
    split_ifs <;> simp only [steps_left] <;> omega

theorem steps_left_output_step (s : OutputVStream) (t : Thread) :
    steps_left (output_thread_step s t).1 ≤ steps_left t - 1 := by
  obtain ⟨pc, calls⟩ := t
  cases pc with
  | body_done => simp [output_thread_step, steps_left]
  | running j =>
    simp only [output_thread_step]
    split_ifs <;> simp only [steps_left] <;> omega

theorem steps_left_thread_step (ins : List InputVStream) (outs : List OutputVStream)
    (w : Worker) (t : Thread) (hw : w ∈ workers ins.length outs.length) :
    steps_left (thread_step ins outs w t).1 ≤ steps_left t - 1 := by
  cases w with
  | input i =>
    have hi := (mem_workers_input _ _ _).mp hw
    simp only [thread_step, List.getElem?_eq_getElem hi]
    exact steps_left_input_step _ t
  | output i =>
    have hi := (mem_workers_output _ _ _).mp hw
    simp only [thread_step, List.getElem?_eq_getElem hi]
    exact steps_left_output_step _ t

theorem steps_left_foldl (ins : List InputVStream) (outs : List OutputVStream) (w : Worker)
    (hw : w ∈ workers ins.length outs.length) :
    ∀ (schedule : List Worker) (σ : InferState),
      steps_left ((schedule.foldl (infer_step ins outs) σ).threads w) ≤
        steps_left (σ.threads w) - schedule.count w := by
  intro schedule
  induction schedule with
  | nil => intro σ; simp
  | cons a l ih =>
    intro σ
    have h := ih (infer_step ins outs σ a)
    rw [List.foldl_cons]
    by_cases ha : a = w
    · subst ha
      have hs := steps_left_thread_step ins outs a (σ.threads a) hw
      have hth : (infer_step ins outs σ a).threads a =
          (thread_step ins outs a (σ.threads a)).1 := by
        rw [infer_step_threads]; simp
      rw [hth] at h
      rw [List.count_cons_self]
      omega
    · have hth : (infer_step ins outs σ a).threads w = σ.threads w := by
        rw [infer_step_threads]; simp [Function.update_noteq (Ne.symm ha)]
      rw [hth] at h
      rw [List.count_cons_of_ne (Ne.symm ha)]
      exact h

theorem steps_left_eq_zero (t : Thread) (h : steps_left t = 0) : t.pc = .body_done := by
  obtain ⟨pc, calls⟩ := t
  cases pc with
  | body_done => rfl
  | running j =>
    simp only [steps_left] at h
    omega

/-- Under a schedule that gives every spawned worker at least 101 steps, the body of every
worker is through and the joins complete: `hailors_infer` returns. -/
theorem hailors_infer_returns (network_group : Nat) (ins : List InputVStream)
    (outs : List OutputVStream) (schedule : List Worker)
    (hfair : ∀ w, w ∈ workers ins.length outs.length → 101 ≤ schedule.count w) :
    (hailors_infer network_group (some ins) (some outs) schedule).isSome = true := by
  by_cases hng : network_group = 0
  · simp [hailors_infer, hng]
  · have hj : joined ins outs (infer_run ins outs schedule) = true := by
      rw [joined_iff]
      intro w hw
      apply steps_left_eq_zero
      have h := steps_left_foldl ins outs w hw schedule infer_init
      have h0 : steps_left (infer_init.threads w) = 101 := by simp [infer_init, steps_left]
      have := hfair w hw
      unfold infer_run
      omega
    simp [hailors_infer, hng, hj]

/-- What `hailors_infer` returns is read off the state of the run once the body of every
worker is through: the final `status`, and for every worker the calls of its whole run. -/
theorem hailors_infer_result (network_group : Nat) (ins : List InputVStream)
    (outs : List OutputVStream) (schedule : List Worker) (r : InferResult)
    (hng : network_group ≠ 0)
    (h : hailors_infer network_group (some ins) (some outs) schedule = some r) :
    (∀ w, w ∈ workers ins.length outs.length →
        ((infer_run ins outs schedule).threads w).pc = .body_done) ∧
      r.status = (infer_run ins outs schedule).status ∧
      r.input_calls = ins.map (fun s => (input_worker s).calls) ∧
      r.output_calls = outs.map (fun s => (output_worker s).calls) := by
  have hinv := infer_run_inv ins outs schedule
  by_cases hj : joined ins outs (infer_run ins outs schedule) = true
  · have hall := (joined_iff ins outs _).mp hj
    simp only [hailors_infer, hng, if_false, hj, if_true, Option.some.injEq] at h
    subst h
    refine ⟨hall, rfl, ?_, ?_⟩
    · apply List.ext_getElem
      · simp
      · intro i h1 h2
        have hi : i < ins.length := by simpa using h1
        have hpc := hall (Worker.input i) ((mem_workers_input _ _ _).mpr hi)
        have ht := hinv.threads (Worker.input i) ins[i] (List.getElem?_eq_getElem hi)
        simp only [input_thread_inv, hpc] at ht
        simpa using ht
    · apply List.ext_getElem
      · simp
      · intro i h1 h2
        have hi : i < outs.length := by simpa using h1
        have hpc := hall (Worker.output i) ((mem_workers_output _ _ _).mpr hi)
        have ht := hinv.threads (Worker.output i) outs[i] (List.getElem?_eq_getElem hi)
        simp only [output_thread_inv, hpc] at ht
        simpa using ht
  · simp [hailors_infer, hng, hj] at h

/-- Once the body of every worker is through and some worker failed, `stores` ends with
the assignment that `status` holds, made by a worker whose failure status it is. -/
theorem last_store (ins : List InputVStream) (outs : List OutputVStream) (σ : InferState)
    (hinv : InferInv ins outs σ)
    (hall : ∀ w, w ∈ workers ins.length outs.length → (σ.threads w).pc = .body_done)
    (hfailed : ∃ w, w ∈ workers ins.length outs.length ∧
      worker_store (ins.map input_worker) (outs.map output_worker) w ≠ none) :
    ∃ earlier w e, σ.stores = earlier ++ [(w, e)] ∧
      w ∈ workers ins.length outs.length ∧
      worker_store (ins.map input_worker) (outs.map output_worker) w = some e ∧
      σ.status = e := by
  obtain ⟨w0, hw0, hne⟩ := hfailed
  obtain ⟨e0, he0⟩ := Option.ne_none_iff_exists'.mp hne
  have hmem := hinv.recorded w0 e0 hw0 (hall w0 hw0) he0
  rcases List.eq_nil_or_concat σ.stores with hnil | ⟨earlier, p, hp⟩
  · rw [hnil] at hmem
    simp at hmem
  · obtain ⟨w, e⟩ := p
    have hp' : σ.stores = earlier ++ [(w, e)] := by simpa using hp
    obtain ⟨h1, -, h3⟩ := hinv.stored w e (by rw [hp']; simp)
    refine ⟨earlier, w, e, hp', h1, h3, ?_⟩
    rw [hinv.status, hp']
    simp

/-- Once the body of every worker is through, `status` is `HAILO_SUCCESS` exactly when no
worker failed. -/
theorem status_success_iff (ins : List InputVStream) (outs : List OutputVStream)
    (σ : InferState) (hinv : InferInv ins outs σ)
    (hall : ∀ w, w ∈ workers ins.length outs.length → (σ.threads w).pc = .body_done) :
    σ.status = HAILO_SUCCESS ↔
      ∀ w, w ∈ workers ins.length outs.length →
        worker_store (ins.map input_worker) (outs.map output_worker) w = none := by
  constructor
  · intro hs w hw
    by_contra hne
    obtain ⟨earlier, v, e, -, -, hv, he⟩ := last_store ins outs σ hinv hall ⟨w, hw, hne⟩
    exact worker_store_ne ins outs v e hv (he ▸ hs)
  · intro hnone
    rcases List.eq_nil_or_concat σ.stores with hnil | ⟨earlier, p, hp⟩
    · rw [hinv.status, hnil]
      rfl
    · obtain ⟨w, e⟩ := p
      have hp' : σ.stores = earlier ++ [(w, e)] := by simpa using hp
      obtain ⟨h1, -, h3⟩ := hinv.stored w e (by rw [hp']; simp)
      rw [hnone w h1] at h3
      cases h3

/-- C1: for any numbers of input and output streams, any device outcomes and any
interleaving of the worker threads, `hailors_infer` with non-null arguments returns if the
schedule gives every worker at least 101 steps, and whenever it returns, it returns
`HAILO_SUCCESS` exactly when every input worker has all its writes and its flush succeed
and every output worker has all its reads succeed. -/
theorem hailors_infer_success_iff (network_group : Nat) (ins : List InputVStream)
    (outs : List OutputVStream) (schedule : List Worker) (hng : network_group ≠ 0) :
    ((∀ w, w ∈ workers ins.length outs.length → 101 ≤ schedule.count w) →
        (hailors_infer network_group (some ins) (some outs) schedule).isSome = true) ∧
      ∀ r, hailors_infer network_group (some ins) (some outs) schedule = some r →
        (r.status = HAILO_SUCCESS ↔
          (∀ s, s ∈ ins → input_succeeds s) ∧ (∀ s, s ∈ outs → output_succeeds s)) := by
  refine ⟨hailors_infer_returns network_group ins outs schedule, ?_⟩
  intro r hr
  obtain ⟨hall, hst, -, -⟩ := hailors_infer_result network_group ins outs schedule r hng hr
  rw [hst, status_success_iff ins outs _ (infer_run_inv ins outs schedule) hall]
  exact all_stores_none_iff ins outs

/-- C2 (amended): when at least one worker fails, `hailors_infer` (non-null arguments, any
interleaving of the worker threads) returns if the schedule gives every worker at least 101
steps, and whenever it returns, it returns the failure status that was recorded last, with
no precedence of input over output workers: every failing worker has its assignment in
`stores`, the list of the assignments to `status` in the order in which they were made,
and the call returns the value of the last entry, which is the failure status of the input
or output worker that made it. -/
theorem hailors_infer_returns_last_failure (network_group : Nat) (ins : List InputVStream)
    (outs : List OutputVStream) (schedule : List Worker) (hng : network_group ≠ 0)
    (hfailed : (∃ s, s ∈ ins ∧ ¬ input_succeeds s) ∨ (∃ s, s ∈ outs ∧ ¬ output_succeeds s)) :
    ((∀ w, w ∈ workers ins.length outs.length → 101 ≤ schedule.count w) →
        (hailors_infer network_group (some ins) (some outs) schedule).isSome = true) ∧
      ∀ r, hailors_infer network_group (some ins) (some outs) schedule = some r →
        (∀ v e, v ∈ workers ins.length outs.length →
          worker_store (ins.map input_worker) (outs.map output_worker) v = some e →
          (v, e) ∈ (infer_run ins outs schedule).stores) ∧
        ∃ earlier w e, (infer_run ins outs schedule).stores = earlier ++ [(w, e)] ∧
          worker_store (ins.map input_worker) (outs.map output_worker) w = some e ∧
          r.status = e := by
  refine ⟨hailors_infer_returns network_group ins outs schedule, ?_⟩
  intro r hr
  obtain ⟨hall, hst, -, -⟩ := hailors_infer_result network_group ins outs schedule r hng hr
  have hinv := infer_run_inv ins outs schedule
  refine ⟨fun v e hv hve => hinv.recorded v e hv (hall v hv) hve, ?_⟩
  have hex : ∃ w, w ∈ workers ins.length outs.length ∧
      worker_store (ins.map input_worker) (outs.map output_worker) w ≠ none := by
    by_contra hnone
    have hallnone : ∀ w, w ∈ workers ins.length outs.length →
        worker_store (ins.map input_worker) (outs.map output_worker) w = none := by
      intro w hw
      by_contra hc
      exact hnone ⟨w, hw, hc⟩
    obtain ⟨hin, hout⟩ := (all_stores_none_iff ins outs).mp hallnone
    rcases hfailed with ⟨s, hs, hne⟩ | ⟨s, hs, hne⟩
    · exact hne (hin s hs)
    · exact hne (hout s hs)
  obtain ⟨earlier, w, e, hlog, -, hwe, hse⟩ := last_store ins outs _ hinv hall hex
  exact ⟨earlier, w, e, hlog, hwe, by rw [hst, hse]⟩

/-- C3: let `1 ≤ k ≤ 100` and `e` be a non-success status. If the `k`-th write on input
stream `i` returns `e`, the writes before it succeed, and every device call on every other
stream succeeds, then under every interleaving of the worker threads `hailors_infer` returns
if the schedule gives every worker at least 101 steps, and whenever it returns: it returns
exactly `e`,
exactly `k` writes (and nothing else) are issued on stream `i`, every other input worker
issues its 100 writes and its flush, and every output worker its 100 reads. -/
theorem hailors_infer_write_failure (network_group : Nat) (ins : List InputVStream)
    (outs : List OutputVStream) (schedule : List Worker) (i k : Nat) (s : InputVStream)
    (e : hailo_status) (hng : network_group ≠ 0)
    (hs : ins[i]? = some s) (hk1 : 1 ≤ k) (hk : k ≤ 100) (he : e ≠ HAILO_SUCCESS)
    (hfail : s.write (k - 1) (zero_frame s.frame_size) = e)
    (hpre : ∀ j, j < k - 1 → s.write j (zero_frame s.frame_size) = HAILO_SUCCESS)
    (hins : ∀ i' s', i' ≠ i → ins[i']? = some s' → input_succeeds s')
    (houts : ∀ s', s' ∈ outs → output_succeeds s') :
    ((∀ w, w ∈ workers ins.length outs.length → 101 ≤ schedule.count w) →
        (hailors_infer network_group (some ins) (some outs) schedule).isSome = true) ∧
      ∀ r, hailors_infer network_group (some ins) (some outs) schedule = some r →
        r.status = e ∧
        r.input_calls[i]? =
          some (List.replicate k (DeviceCall.write (zero_frame s.frame_size))) ∧
        (∀ i' s', i' ≠ i → ins[i']? = some s' →
          r.input_calls[i']? =
            some (List.replicate 100 (DeviceCall.write (zero_frame s'.frame_size)) ++
              [DeviceCall.flush])) ∧
        (∀ (o : Nat) (s' : OutputVStream), outs[o]? = some s' →
          r.output_calls[o]? =
            some (List.replicate 100 (DeviceCall.read (zero_frame s'.frame_size)))) := by
  refine ⟨hailors_infer_returns network_group ins outs schedule, ?_⟩
  intro r hr
  obtain ⟨hall, hst, hic, hoc⟩ :=
    hailors_infer_result network_group ins outs schedule r hng hr
  have hrun : input_worker s =
      { calls := List.replicate k (DeviceCall.write (zero_frame s.frame_size)),
        store := some e } := by
    have := input_worker_fail s (k - 1) e he (by omega) hpre hfail
    rwa [show k - 1 + 1 = k by omega] at this
  have hilt : i < ins.length := by
    by_contra hc
    rw [List.getElem?_eq_none (by omega)] at hs
    simp at hs
  have hwi : worker_store (ins.map input_worker) (outs.map output_worker)
      (Worker.input i) = some e := by
    rw [worker_store_input, hs]
    simp [hrun]
  have hothers : ∀ v, v ∈ workers ins.length outs.length → v ≠ Worker.input i →
      worker_store (ins.map input_worker) (outs.map output_worker) v = none := by
    intro v hv hne
    simp only [workers, List.mem_append, List.mem_map, List.mem_range] at hv
    rcases hv with ⟨i', hi', rfl⟩ | ⟨o, ho, rfl⟩
    · have hii : i' ≠ i := fun hc => hne (hc ▸ rfl)
      rw [worker_store_input, List.getElem?_eq_getElem hi']
      exact (input_worker_store_none_iff _).mpr
        (hins i' _ hii (List.getElem?_eq_getElem hi'))
    · rw [worker_store_output, List.getElem?_eq_getElem ho]
      exact (output_worker_store_none_iff _).mpr (houts _ (List.getElem_mem _))
  refine ⟨?_, ?_, ?_, ?_⟩
  · obtain ⟨earlier, v, e', -, hv, hve, hse⟩ :=
      last_store ins outs _ (infer_run_inv ins outs schedule) hall
        ⟨Worker.input i, (mem_workers_input _ _ _).mpr hilt, by rw [hwi]; simp⟩
    rw [hst, hse]
    by_cases hvi : v = Worker.input i
    · subst hvi
      rw [hwi] at hve
      cases hve
      rfl
    · rw [hothers v hv hvi] at hve
      cases hve
  · rw [hic, List.getElem?_map, hs]
    simp [hrun]
  · intro i' s' hii hs'
    rw [hic, List.getElem?_map, hs']
    simp [input_worker_ok s' (hins i' s' hii hs')]
  · intro o s' hs'
    have hmem : s' ∈ outs := List.getElem?_mem hs'
    rw [hoc, List.getElem?_map, hs']
    simp [output_worker_ok s' (houts s' hmem)]

/-- C4: when every device call succeeds, `hailors_infer` (non-null arguments, any
interleaving of the worker threads) returns if the schedule gives every worker at least 101
steps, and whenever it returns: the status is `HAILO_SUCCESS`, every input worker has issued exactly
100 writes of the zero-filled buffer of the frame size of its stream followed by one flush,
and every output worker exactly 100 reads and no flush. -/
theorem hailors_infer_all_succeed (network_group : Nat) (ins : List InputVStream)
    (outs : List OutputVStream) (schedule : List Worker) (hng : network_group ≠ 0)
    (hins : ∀ s, s ∈ ins → input_succeeds s) (houts : ∀ s, s ∈ outs → output_succeeds s) :
    ((∀ w, w ∈ workers ins.length outs.length → 101 ≤ schedule.count w) →
        (hailors_infer network_group (some ins) (some outs) schedule).isSome = true) ∧
      ∀ r, hailors_infer network_group (some ins) (some outs) schedule = some r →
        r.status = HAILO_SUCCESS ∧
        r.input_calls =
          ins.map (fun s =>
            List.replicate 100 (DeviceCall.write (zero_frame s.frame_size)) ++
              [DeviceCall.flush]) ∧
        r.output_calls =
          outs.map (fun s =>
            List.replicate 100 (DeviceCall.read (zero_frame s.frame_size))) := by
  refine ⟨hailors_infer_returns network_group ins outs schedule, ?_⟩
  intro r hr
  obtain ⟨hall, hst, hic, hoc⟩ :=
    hailors_infer_result network_group ins outs schedule r hng hr
  refine ⟨?_, ?_, ?_⟩
  · rw [hst, status_success_iff ins outs _ (infer_run_inv ins outs schedule) hall]
    exact (all_stores_none_iff ins outs).mpr ⟨hins, houts⟩
  · rw [hic]
    apply List.map_congr_left
    intro s hs
    rw [input_worker_ok s (hins s hs)]
  · rw [hoc]
    apply List.map_congr_left
    intro s hs
    rw [output_worker_ok s (houts s hs)]

theorem hailors_infer_null_arguments (network_group : Nat)
    (input_vstreams : Option (List InputVStream))
    (output_vstreams : Option (List OutputVStream)) (schedule : List Worker)
    (h : network_group = 0 ∨ input_vstreams = none ∨ output_vstreams = none) :
    hailors_infer network_group input_vstreams output_vstreams schedule =
      some { status := HAILO_INVALID_ARGUMENT, input_calls := [], output_calls := [] } := by
  cases input_vstreams <;> cases output_vstreams <;> simp_all [hailors_infer]

theorem round_robin_fair (ws : List Worker) (w : Worker) (hw : w ∈ ws) :
    ∀ n, n ≤ (round_robin ws n).count w := by
  intro n
  induction n with
  | zero => exact Nat.zero_le _
  | succ n ih =>
    have h1 : 1 ≤ ws.count w := List.count_pos_iff.mpr hw
    simp only [round_robin, List.count_append]
    omega

/-- C1 (witness): two input streams and one output stream on which every call succeeds,
the three workers taking turns; the call returns `HAILO_SUCCESS`. -/
theorem hailors_infer_success_iff_witness :
    ∃ r, hailors_infer 1 (some [ok_input 4, ok_input 8]) (some [ok_output 16])
        (round_robin [Worker.output 0, Worker.input 1, Worker.input 0] 101) = some r ∧
      r.status = HAILO_SUCCESS := by
  have h := hailors_infer_success_iff 1 [ok_input 4, ok_input 8] [ok_output 16]
    (round_robin [Worker.output 0, Worker.input 1, Worker.input 0] 101) (by decide)
  obtain ⟨r, hr⟩ := Option.isSome_iff_exists.mp (h.1
    (fun w hw => round_robin_fair _ w
      ((by decide : ∀ v, v ∈ workers 2 1 →
        v ∈ [Worker.output 0, Worker.input 1, Worker.input 0]) w hw) 101))
  exact ⟨r, hr, (h.2 r hr).mpr ⟨by decide, by decide⟩⟩

/-- C2 (counterexample): one input worker fails with code 1 and one output worker fails
with code 2; the input worker records its failure first, the output worker after it. The
call returns code 2, the status of the output worker: not the first recorded failure and
not the status of any input worker. -/
theorem hailors_infer_no_input_precedence :
    (input_worker (failing_input 4 1 (HAILO_OTHER 1))).store = some (HAILO_OTHER 1) ∧
      (output_worker (failing_output 4 (HAILO_OTHER 2))).store = some (HAILO_OTHER 2) ∧
      (infer_run [failing_input 4 1 (HAILO_OTHER 1)] [failing_output 4 (HAILO_OTHER 2)]
          [Worker.input 0, Worker.output 0]).stores =
        [(Worker.input 0, HAILO_OTHER 1), (Worker.output 0, HAILO_OTHER 2)] ∧
      hailors_infer 1 (some [failing_input 4 1 (HAILO_OTHER 1)])
          (some [failing_output 4 (HAILO_OTHER 2)]) [Worker.input 0, Worker.output 0] =
        some
          { status := HAILO_OTHER 2
            input_calls := [[DeviceCall.write (zero_frame 4)]]
            output_calls := [[DeviceCall.read (zero_frame 4)]] } ∧
      ¬ ∃ s, s ∈ [failing_input 4 1 (HAILO_OTHER 1)] ∧
          (input_worker s).store = some (HAILO_OTHER 2) := by
  refine ⟨by decide, by decide, by decide, by decide, ?_⟩
  rintro ⟨s, hs, h⟩
  simp only [List.mem_singleton] at hs
  subst hs
  revert h
  decide

/-- C2 (witness): the run of the counterexample, read with the amended claim: the last
entry of `stores` is the assignment of code 2 by the output worker, and code 2 is
returned. -/
theorem hailors_infer_returns_last_failure_witness :
    ∃ earlier w e,
      (infer_run [failing_input 4 1 (HAILO_OTHER 1)] [failing_output 4 (HAILO_OTHER 2)]
        [Worker.input 0, Worker.output 0]).stores = earlier ++ [(w, e)] ∧
      worker_store ([failing_input 4 1 (HAILO_OTHER 1)].map input_worker)
        ([failing_output 4 (HAILO_OTHER 2)].map output_worker) w = some e ∧
      HAILO_OTHER 2 = e :=
  ((hailors_infer_returns_last_failure 1 [failing_input 4 1 (HAILO_OTHER 1)]
    [failing_output 4 (HAILO_OTHER 2)] [Worker.input 0, Worker.output 0] (by decide)
    (Or.inl ⟨_, List.mem_singleton.mpr rfl, by decide⟩)).2
    { status := HAILO_OTHER 2
      input_calls := [[DeviceCall.write (zero_frame 4)]]
      output_calls := [[DeviceCall.read (zero_frame 4)]] }
    (by decide)).2

/-- C3 (witness): write 37 of the first of two input streams returns code 7, the workers
take turns; the call returns code 7 and 37 writes are issued on that stream, the other 63
never. -/
theorem hailors_infer_write_failure_witness :
    ∃ r, hailors_infer 1 (some [failing_input 4 37 (HAILO_OTHER 7), ok_input 8])
        (some [ok_output 16])
        (round_robin [Worker.output 0, Worker.input 1, Worker.input 0] 101) = some r ∧
      r.status = HAILO_OTHER 7 ∧
      r.input_calls[0]? = some (List.replicate 37 (DeviceCall.write (zero_frame 4))) := by
  have h := hailors_infer_write_failure 1 [failing_input 4 37 (HAILO_OTHER 7), ok_input 8]
    [ok_output 16] (round_robin [Worker.output 0, Worker.input 1, Worker.input 0] 101) 0 37
    (failing_input 4 37 (HAILO_OTHER 7)) (HAILO_OTHER 7) (by decide) rfl
    (by decide) (by decide) (by decide) (by simp [failing_input])
    (by intro j hj; simp only [failing_input]; rw [if_neg (by omega)])
    (by
      intro i' s' hne hs'
      match i', hne, hs' with
      | 1, _, hs' =>
        simp only [List.getElem?_cons_succ, List.getElem?_cons_zero, Option.some.injEq] at hs'
        subst hs'
        exact ⟨fun _ _ => rfl, rfl⟩
      | n + 2, _, hs' => simp at hs')
    (by
      intro s' hs'
      simp only [List.mem_singleton] at hs'
      subst hs'
      exact fun _ _ => rfl)
  obtain ⟨r, hr⟩ := Option.isSome_iff_exists.mp (h.1
    (fun w hw => round_robin_fair _ w
      ((by decide : ∀ v, v ∈ workers 2 1 →
        v ∈ [Worker.output 0, Worker.input 1, Worker.input 0]) w hw) 101))
  exact ⟨r, hr, (h.2 r hr).1, (h.2 r hr).2.1⟩

/-- C4 (witness): a model with two inputs and one output on which every call succeeds, the
workers taking turns. -/
theorem hailors_infer_all_succeed_witness :
    ∃ r, hailors_infer 1 (some [ok_input 4, ok_input 8]) (some [ok_output 16])
        (round_robin [Worker.input 0, Worker.output 0, Worker.input 1] 101) = some r ∧
      r.status = HAILO_SUCCESS ∧
      r.input_calls =
        [List.replicate 100 (DeviceCall.write (zero_frame 4)) ++ [DeviceCall.flush],
          List.replicate 100 (DeviceCall.write (zero_frame 8)) ++ [DeviceCall.flush]] ∧
      r.output_calls = [List.replicate 100 (DeviceCall.read (zero_frame 16))] := by
  have h := hailors_infer_all_succeed 1 [ok_input 4, ok_input 8] [ok_output 16]
    (round_robin [Worker.input 0, Worker.output 0, Worker.input 1] 101) (by decide)
    (by decide) (by decide)
  obtain ⟨r, hr⟩ := Option.isSome_iff_exists.mp (h.1
    (fun w hw => round_robin_fair _ w
      ((by decide : ∀ v, v ∈ workers 2 1 →
        v ∈ [Worker.input 0, Worker.output 0, Worker.input 1]) w hw) 101))
  exact ⟨r, hr, h.2 r hr⟩

/-- C5 (code at the failing input): the model parses, the configure parameters are derived
and the configuration yields an empty vector of network groups; the call returns
`HAILO_SUCCESS`. -/
theorem hailors_configure_hef_empty_groups_status :
    (hailors_configure_hef (vdevice_with_groups []) [1, 2, 3] 3 stale_out).status =
      HAILO_SUCCESS := by
  rfl

/-- C9 (code at the failing input): with an empty vector of network groups the call
returns `HAILO_SUCCESS`, creates no stream, and leaves `input_frame_size` and
`output_frame_size` as the caller had them (7 and 9), not 0. -/
theorem hailors_configure_hef_empty_groups_frame_size :
    (hailors_configure_hef (vdevice_with_groups []) [1, 2, 3] 3 stale_out).status =
        HAILO_SUCCESS ∧
      (hailors_configure_hef (vdevice_with_groups []) [1, 2, 3] 3 stale_out).live_inputs.length
        = 0 ∧
      (hailors_configure_hef (vdevice_with_groups []) [1, 2, 3] 3
        stale_out).live_outputs.length = 0 ∧
      (hailors_configure_hef (vdevice_with_groups []) [1, 2, 3] 3
        stale_out).out.input_frame_size = 7 ∧
      (hailors_configure_hef (vdevice_with_groups []) [1, 2, 3] 3
        stale_out).out.output_frame_size = 9 := by
  refine ⟨rfl, rfl, rfl, rfl, rfl⟩

/-- C6 (counterexample): two input streams are created and the output stream parameters
then fail with code 5. The call returns code 5, yet both input stream objects are still
allocated and the reported input count is 2. -/
theorem hailors_configure_hef_leaks_inputs :
    (hailors_configure_hef
        (vdevice_with_groups
          [some (output_failing_group 64 [ok_input 4, ok_input 8] (HAILO_OTHER 5)
            (by decide))])
        [1, 2, 3] 3 stale_out).status = HAILO_OTHER 5 ∧
      (hailors_configure_hef
        (vdevice_with_groups
          [some (output_failing_group 64 [ok_input 4, ok_input 8] (HAILO_OTHER 5)
            (by decide))])
        [1, 2, 3] 3 stale_out).live_inputs.length = 2 ∧
      (hailors_configure_hef
        (vdevice_with_groups
          [some (output_failing_group 64 [ok_input 4, ok_input 8] (HAILO_OTHER 5)
            (by decide))])
        [1, 2, 3] 3 stale_out).out.input_count = 2 := by
  refine ⟨rfl, rfl, rfl⟩

/-- C7 (code at the failing input): a non-null handle, a non-null buffer and size zero.
The device write is invoked once, with a view of size 0, and its status is returned; here
the device answers `HAILO_SUCCESS`. -/
theorem hailors_write_input_frame_zero_size :
    (hailors_write_input_frame (some (ok_input 4)) (some [1, 2, 3, 4]) 0).status =
        HAILO_SUCCESS ∧
      (hailors_write_input_frame (some (ok_input 4)) (some [1, 2, 3, 4]) 0).calls =
        [DeviceCall.write ⟨[1, 2, 3, 4], 0⟩] := by
  refine ⟨rfl, rfl⟩

/-- C8: `hailors_read_output_frame` returns `HAILO_INVALID_ARGUMENT` and makes no device
call when the handle is null, the buffer is null or the size is zero; in every other case it
makes exactly one device read, of the buffer with the size given, and returns the status of
that read unchanged. -/
theorem hailors_read_output_frame_spec (output_vstream : Option OutputVStream)
    (buffer : Option (List Nat)) (buffer_size : Nat) :
    ((output_vstream = none ∨ buffer = none ∨ buffer_size = 0) →
        hailors_read_output_frame output_vstream buffer buffer_size =
          { status := HAILO_INVALID_ARGUMENT, calls := [] }) ∧
      (∀ (vstream : OutputVStream) (bytes : List Nat),
        output_vstream = some vstream → buffer = some bytes → buffer_size ≠ 0 →
        hailors_read_output_frame output_vstream buffer buffer_size =
          { status := vstream.read 0 ⟨bytes, buffer_size⟩,
            calls := [DeviceCall.read ⟨bytes, buffer_size⟩] }) := by
  constructor
  · intro h
    cases output_vstream with
    | none => rfl
    | some vstream =>
      cases buffer with
      | none => rfl
      | some bytes =>
        have hz : buffer_size = 0 := by simpa using h
        simp [hailors_read_output_frame, hz]
  · intro vstream bytes hv hb hz
    subst hv hb
    simp [hailors_read_output_frame, hz]

/-- C8 (witness): a null buffer is rejected without a device call, and a read of 4 bytes on
a stream whose reads fail with code 3 returns code 3 after one device read. -/
theorem hailors_read_output_frame_spec_witness :
    hailors_read_output_frame (some (ok_output 4)) none 4 =
        { status := HAILO_INVALID_ARGUMENT, calls := [] } ∧
      hailors_read_output_frame (some (failing_output 4 (HAILO_OTHER 3))) (some [0, 0, 0, 0]) 4 =
        { status := HAILO_OTHER 3, calls := [DeviceCall.read ⟨[0, 0, 0, 0], 4⟩] } :=
  ⟨(hailors_read_output_frame_spec (some (ok_output 4)) none 4).1 (Or.inr (Or.inl rfl)),
    (hailors_read_output_frame_spec (some (failing_output 4 (HAILO_OTHER 3)))
      (some [0, 0, 0, 0]) 4).2 _ _ rfl rfl (by decide)⟩

/-- C10 (counterexample): a session is created at address 1 and released twice. The first
release returns `HAILO_SUCCESS` and frees the object; the second applies `delete` to the
dangling pointer and has no defined result: no status is returned, `InvalidHandle` or
other. -/
theorem hailors_release_vdevice_second_call_undefined :
    hailors_create_vdevice (.value 1) 0 { live := [] } =
        (HAILO_SUCCESS, 1, { live := [1] }) ∧
      hailors_release_vdevice 1 { live := [1] } = some (HAILO_SUCCESS, { live := [] }) ∧
      hailors_release_vdevice 1 { live := [] } = none := by
  refine ⟨rfl, by decide, by decide⟩

/-- C10 (amended): for every session handle returned by `hailors_create_vdevice` (a
non-null address that held no object before), the first `hailors_release_vdevice` returns
`HAILO_SUCCESS` and frees the object, leaving the heap as it was before the session was
created; a second release of the same handle is not rejected with a status: it applies
`delete` to the dangling pointer, which is undefined behaviour, and has no defined result. -/
theorem hailors_release_vdevice_twice (vdevice_result : Expected Nat) (vdevice : Nat)
    (heap heap₁ : Heap) (handle : Nat)
    (hcreate :
      hailors_create_vdevice vdevice_result vdevice heap = (HAILO_SUCCESS, handle, heap₁))
    (hnull : handle ≠ 0) (hfresh : handle ∉ heap.live) :
    hailors_release_vdevice handle heap₁ = some (HAILO_SUCCESS, heap) ∧
      hailors_release_vdevice handle heap = none := by
  cases vdevice_result with
  | unexpected s hs =>
    simp only [hailors_create_vdevice, Expected.status, Prod.mk.injEq] at hcreate
    exact absurd hcreate.1 hs
  | value p =>
    simp only [hailors_create_vdevice, Prod.mk.injEq, true_and] at hcreate
    obtain ⟨rfl, rfl⟩ := hcreate
    obtain ⟨live⟩ := heap
    constructor
    · simp [hailors_release_vdevice, hnull]
    · simp only at hfresh
      simp [hailors_release_vdevice, hnull, hfresh]

/-- C10 (witness): the session at address 1 of the counterexample. -/
theorem hailors_release_vdevice_twice_witness :
    hailors_release_vdevice 1 { live := [1] } = some (HAILO_SUCCESS, { live := [] }) ∧
      hailors_release_vdevice 1 { live := [] } = none :=
  hailors_release_vdevice_twice (.value 1) 0 { live := [] } { live := [1] } 1 rfl
    (by decide) (by decide)

theorem hailors_release_vdevice_status (vdevice : Nat) (heap heap₁ : Heap)
    (status : hailo_status)
    (h : hailors_release_vdevice vdevice heap = some (status, heap₁)) :
    status = HAILO_SUCCESS := by
  unfold hailors_release_vdevice at h
  split_ifs at h <;> simp only [Option.some.injEq, Prod.mk.injEq] at h <;> exact h.1.symm

theorem hailors_release_vdevice_defined_iff (vdevice : Nat) (heap : Heap) :
    (hailors_release_vdevice vdevice heap).isSome = true ↔
      vdevice = 0 ∨ vdevice ∈ heap.live := by
  unfold hailors_release_vdevice
  by_cases h1 : vdevice = 0
  · simp [h1]
  · by_cases h2 : vdevice ∈ heap.live <;> simp [h1, h2]

/-- C6 (amended): when `hailors_configure_hef` returns a non-success status, no output
stream object created by the call is left allocated and the reported output count is 0.
If the call failed before the input streams were created, no input stream object exists
and the reported input count is 0; if it failed after that (deriving the output stream
parameters or creating the output streams), the input stream objects created by the call
are all still allocated and the reported input count is their number. -/
theorem hailors_configure_hef_failure (vdevice : VDevice) (model : List Nat)
    (model_size : Nat) (out : ConfigureOut)
    (hfail : (hailors_configure_hef vdevice model model_size out).status ≠ HAILO_SUCCESS) :
    (hailors_configure_hef vdevice model model_size out).live_outputs = [] ∧
      (hailors_configure_hef vdevice model model_size out).out.output_count = 0 ∧
      ((∃ g ins, input_streams_created vdevice model model_size g ins ∧
          (hailors_configure_hef vdevice model model_size out).live_inputs = ins ∧
          (hailors_configure_hef vdevice model model_size out).out.input_count = ins.length) ∨
        ((¬ ∃ g ins, input_streams_created vdevice model model_size g ins) ∧
          (hailors_configure_hef vdevice model model_size out).live_inputs = [] ∧
          (hailors_configure_hef vdevice model model_size out).out.input_count = 0)) := by
  rcases h1 : vdevice.Hef_create ⟨model, model_size⟩ with hef | ⟨s, hs⟩
  · rcases h2 : vdevice.create_configure_params hef with params | ⟨s, hs⟩
    · rcases h3 : vdevice.configure hef params with groups | ⟨s, hs⟩
      · rcases groups with _ | ⟨g, rest⟩
        · simp [hailors_configure_hef, h1, h2, h3, Expected.status] at hfail
        · rcases g with _ | g
          · refine ⟨?_, ?_, Or.inr ⟨?_, ?_, ?_⟩⟩
            · simp [hailors_configure_hef, h1, h2, h3]
            · simp [hailors_configure_hef, h1, h2, h3]
            · rintro ⟨g', ins, hef', params', rest', ip, e1, e2, e3, -, -⟩
              rw [h1] at e1; cases e1
              rw [h2] at e2; cases e2
              rw [h3] at e3; cases e3
            · simp [hailors_configure_hef, h1, h2, h3]
            · simp [hailors_configure_hef, h1, h2, h3]
          · rcases h4 : g.make_input_vstream_params .HAILO_FORMAT_TYPE_AUTO with ip | ⟨s, hs⟩
            · rcases h5 : g.create_input_vstreams ip with ins | ⟨s, hs⟩
              · have hcreated : input_streams_created vdevice model model_size g ins :=
                  ⟨hef, params, rest, ip, h1, h2, h3, h4, h5⟩
                rcases h6 : g.make_output_vstream_params .HAILO_FORMAT_TYPE_FLOAT32 with
                  op | ⟨s, hs⟩
                · rcases h7 : g.create_output_vstreams op with outs | ⟨s, hs⟩
                  · simp [hailors_configure_hef, h1, h2, h3, h4, h5, h6, h7] at hfail
                  · refine ⟨?_, ?_, Or.inl ⟨g, ins, hcreated, ?_, ?_⟩⟩ <;>
                      simp [hailors_configure_hef, h1, h2, h3, h4, h5, h6, h7]
                · refine ⟨?_, ?_, Or.inl ⟨g, ins, hcreated, ?_, ?_⟩⟩ <;>
                    simp [hailors_configure_hef, h1, h2, h3, h4, h5, h6]
              · refine ⟨?_, ?_, Or.inr ⟨?_, ?_, ?_⟩⟩
                · simp [hailors_configure_hef, h1, h2, h3, h4, h5]
                · simp [hailors_configure_hef, h1, h2, h3, h4, h5]
                · rintro ⟨g', ins, hef', params', rest', ip', e1, e2, e3, e4, e5⟩
                  rw [h1] at e1; cases e1
                  rw [h2] at e2; cases e2
                  rw [h3] at e3; cases e3
                  rw [h4] at e4; cases e4
                  rw [h5] at e5; cases e5
                · simp [hailors_configure_hef, h1, h2, h3, h4, h5]
                · simp [hailors_configure_hef, h1, h2, h3, h4, h5]
            · refine ⟨?_, ?_, Or.inr ⟨?_, ?_, ?_⟩⟩
              · simp [hailors_configure_hef, h1, h2, h3, h4]
              · simp [hailors_configure_hef, h1, h2, h3, h4]
              · rintro ⟨g', ins, hef', params', rest', ip', e1, e2, e3, e4, -⟩
                rw [h1] at e1; cases e1
                rw [h2] at e2; cases e2
                rw [h3] at e3; cases e3
                rw [h4] at e4; cases e4
              · simp [hailors_configure_hef, h1, h2, h3, h4]
              · simp [hailors_configure_hef, h1, h2, h3, h4]
      · refine ⟨?_, ?_, Or.inr ⟨?_, ?_, ?_⟩⟩
        · simp [hailors_configure_hef, h1, h2, h3]
        · simp [hailors_configure_hef, h1, h2, h3]
        · rintro ⟨g', ins, hef', params', rest', ip', e1, e2, e3, -, -⟩
          rw [h1] at e1; cases e1
          rw [h2] at e2; cases e2
          rw [h3] at e3; cases e3
        · simp [hailors_configure_hef, h1, h2, h3]
        · simp [hailors_configure_hef, h1, h2, h3]
    · refine ⟨?_, ?_, Or.inr ⟨?_, ?_, ?_⟩⟩
      · simp [hailors_configure_hef, h1, h2]
      · simp [hailors_configure_hef, h1, h2]
      · rintro ⟨g', ins, hef', params', rest', ip', e1, e2, -, -, -⟩
        rw [h1] at e1; cases e1
        rw [h2] at e2; cases e2
      · simp [hailors_configure_hef, h1, h2]
      · simp [hailors_configure_hef, h1, h2]
  · refine ⟨?_, ?_, Or.inr ⟨?_, ?_, ?_⟩⟩
    · simp [hailors_configure_hef, h1]
    · simp [hailors_configure_hef, h1]
    · rintro ⟨g', ins, hef', params', rest', ip', e1, -, -, -, -⟩
      rw [h1] at e1; cases e1
    · simp [hailors_configure_hef, h1]
    · simp [hailors_configure_hef, h1]

theorem hailors_write_input_frame_null (input_vstream : Option InputVStream)
    (data : Option (List Nat)) (data_size : Nat) (h : input_vstream = none ∨ data = none) :
    hailors_write_input_frame input_vstream data data_size =
      { status := HAILO_INVALID_ARGUMENT, calls := [] } := by
  cases input_vstream <;> cases data <;> simp_all [hailors_write_input_frame]

theorem hailors_write_input_frame_forwards (vstream : InputVStream) (bytes : List Nat)
    (data_size : Nat) :
    hailors_write_input_frame (some vstream) (some bytes) data_size =
      { status := vstream.write 0 ⟨bytes, data_size⟩,
        calls := [DeviceCall.write ⟨bytes, data_size⟩] } := by
  rfl

theorem hailors_configure_hef_empty_groups (vdevice : VDevice) (model : List Nat)
    (model_size : Nat) (out : ConfigureOut) (hef : Hef) (params : ConfigureParams)
    (h1 : vdevice.Hef_create ⟨model, model_size⟩ = .value hef)
    (h2 : vdevice.create_configure_params hef = .value params)
    (h3 : vdevice.configure hef params = .value []) :
    hailors_configure_hef vdevice model model_size out =
      { status := HAILO_SUCCESS, out := { out with input_count := 0, output_count := 0 },
        live_inputs := [], live_outputs := [] } := by
  simp [hailors_configure_hef, h1, h2, h3, Expected.status]

theorem hailors_configure_hef_reports (vdevice : VDevice) (model : List Nat)
    (model_size : Nat) (out : ConfigureOut) (hef : Hef) (params : ConfigureParams)
    (g : Option ConfiguredNetworkGroup) (rest : List (Option ConfiguredNetworkGroup))
    (h1 : vdevice.Hef_create ⟨model, model_size⟩ = .value hef)
    (h2 : vdevice.create_configure_params hef = .value params)
    (h3 : vdevice.configure hef params = .value (g :: rest))
    (hok : (hailors_configure_hef vdevice model model_size out).status = HAILO_SUCCESS) :
    (hailors_configure_hef vdevice model model_size out).out.input_count =
        (hailors_configure_hef vdevice model model_size out).live_inputs.length ∧
      (hailors_configure_hef vdevice model model_size out).out.output_count =
        (hailors_configure_hef vdevice model model_size out).live_outputs.length ∧
      (hailors_configure_hef vdevice model model_size out).out.input_frame_size =
        (match (hailors_configure_hef vdevice model model_size out).live_inputs with
          | [] => 0
          | first :: _ => first.frame_size) ∧
      (hailors_configure_hef vdevice model model_size out).out.output_frame_size =
        (match (hailors_configure_hef vdevice model model_size out).live_outputs with
          | [] => 0
          | first :: _ => first.frame_size) ∧
      (hailors_configure_hef vdevice model model_size out).out.input_vstreams =
        some (hailors_configure_hef vdevice model model_size out).live_inputs ∧
      (hailors_configure_hef vdevice model model_size out).out.output_vstreams =
        some (hailors_configure_hef vdevice model model_size out).live_outputs := by
  rcases g with _ | g
  · simp [hailors_configure_hef, h1, h2, h3] at hok
  · rcases h4 : g.make_input_vstream_params .HAILO_FORMAT_TYPE_AUTO with ip | ⟨s, hs⟩
    · rcases h5 : g.create_input_vstreams ip with ins | ⟨s, hs⟩
      · rcases h6 : g.make_output_vstream_params .HAILO_FORMAT_TYPE_FLOAT32 with op | ⟨s, hs⟩
        · rcases h7 : g.create_output_vstreams op with outs | ⟨s, hs⟩
          · simp [hailors_configure_hef, h1, h2, h3, h4, h5, h6, h7]
          · simp [hailors_configure_hef, h1, h2, h3, h4, h5, h6, h7, Expected.status] at hok
            exact absurd hok hs
        · simp [hailors_configure_hef, h1, h2, h3, h4, h5, h6, Expected.status] at hok
          exact absurd hok hs
      · simp [hailors_configure_hef, h1, h2, h3, h4, h5, Expected.status] at hok
        exact absurd hok hs
    · simp [hailors_configure_hef, h1, h2, h3, h4, Expected.status] at hok
      exact absurd hok hs

theorem hailors_configure_hef_two_inputs_one_output :
    (hailors_configure_hef
        (vdevice_with_groups [some (ok_group 64 [ok_input 4, ok_input 8] [ok_output 16])])
        [1, 2, 3] 3 stale_out).status = HAILO_SUCCESS ∧
      (hailors_configure_hef
        (vdevice_with_groups [some (ok_group 64 [ok_input 4, ok_input 8] [ok_output 16])])
        [1, 2, 3] 3 stale_out).out.input_count = 2 ∧
      (hailors_configure_hef
        (vdevice_with_groups [some (ok_group 64 [ok_input 4, ok_input 8] [ok_output 16])])
        [1, 2, 3] 3 stale_out).out.output_count = 1 ∧
      (hailors_configure_hef
        (vdevice_with_groups [some (ok_group 64 [ok_input 4, ok_input 8] [ok_output 16])])
        [1, 2, 3] 3 stale_out).out.input_frame_size = 4 ∧
      (hailors_configure_hef
        (vdevice_with_groups [some (ok_group 64 [ok_input 4, ok_input 8] [ok_output 16])])
        [1, 2, 3] 3 stale_out).out.output_frame_size = 16 ∧
      (hailors_configure_hef
        (vdevice_with_groups [some (ok_group 64 [ok_input 4, ok_input 8] [ok_output 16])])
        [1, 2, 3] 3 stale_out).out.network_group = 64 := by
  refine ⟨rfl, rfl, rfl, rfl, rfl, rfl⟩

/-- C6 (witness): the failing call of the counterexample, read with the amended claim. -/
theorem hailors_configure_hef_failure_witness :
    (hailors_configure_hef
        (vdevice_with_groups
          [some (output_failing_group 64 [ok_input 4, ok_input 8] (HAILO_OTHER 5)
            (by decide))])
        [1, 2, 3] 3 stale_out).live_outputs = [] ∧
      (hailors_configure_hef
        (vdevice_with_groups
          [some (output_failing_group 64 [ok_input 4, ok_input 8] (HAILO_OTHER 5)
            (by decide))])
        [1, 2, 3] 3 stale_out).out.output_count = 0 :=
  have h := hailors_configure_hef_failure
    (vdevice_with_groups
      [some (output_failing_group 64 [ok_input 4, ok_input 8] (HAILO_OTHER 5) (by decide))])
    [1, 2, 3] 3 stale_out (by decide)
  ⟨h.1, h.2.1⟩

end Hailors
